import Mathlib

/-!
Verification development for the UNIDO project-document extraction engine
(`docs/text/extract_project_info.py`).

The Python source is shallowly embedded over `List Char`.  Python regular
expressions that are simple enough are embedded as dedicated deterministic
scanners (their backtracking behaviour is deterministic for those patterns);
the large extraction cascades are embedded through a small backtracking
regular-expression engine together with literal transcriptions of the
patterns.  Floating point only occurs in one ratio test, on small integer
operands where the float comparison agrees with the exact rational
comparison; that test is embedded as the equivalent integer comparison.
-/

set_option maxRecDepth 1000000

namespace UPD

/-- The whitespace predicate used for Python `\s` (str mode) and `str.strip()`,
restricted to the character ranges that can occur in the documents
(ASCII plus the Latin-1 whitespace code points). -/
def pySpace (c : Char) : Bool :=
  c = ' ' || c = '\t' || c = '\n' || c = '\r' || c = '\x0b' || c = '\x0c' ||
  (0x1c ≤ c.toNat && c.toNat ≤ 0x1f) || c.toNat = 0x85 || c.toNat = 0xa0

/-- Python `\d` on ASCII text. -/
def isDigitC (c : Char) : Bool := '0' ≤ c && c ≤ '9'

/-- Python `[A-Za-z]`. -/
def isAlphaC (c : Char) : Bool := ('a' ≤ c && c ≤ 'z') || ('A' ≤ c && c ≤ 'Z')

/-- ASCII lower-casing, used for the `re.IGNORECASE` flag. -/
def lowerC (c : Char) : Char :=
  if 'A' ≤ c && c ≤ 'Z' then Char.ofNat (c.toNat + 32) else c

/-- ASCII upper-casing, used for the `re.IGNORECASE` flag. -/
def upperC (c : Char) : Char :=
  if 'a' ≤ c && c ≤ 'z' then Char.ofNat (c.toNat - 32) else c

/-- Case-insensitive character comparison (ASCII case folding). -/
def eqCI (a b : Char) : Bool := a = b || lowerC a = lowerC b

/-- Drop leading Python whitespace. -/
def dropSp (l : List Char) : List Char := l.dropWhile pySpace

/-- Expect one exact character at the head of the input, returning the rest. -/
def expectC (c : Char) (l : List Char) : Option (List Char) :=
  match l with
  | x :: t => if x = c then some t else none
  | [] => none

/-!  Embedding of `clean_text` (source lines 58-74).  Each `re.sub` is a
dedicated scanner; for each of these patterns the backtracking search is
deterministic, so the scanners implement exactly the leftmost,
non-overlapping substitution that `re.sub` performs. -/

/-- Normalisation of line endings:
`text.replace('\r\n', '\n').replace('\r', '\n')`. -/
def normEOL : List Char → List Char
  | [] => []
  | '\r' :: '\n' :: t => '\n' :: normEOL t
  | '\r' :: t => '\n' :: normEOL t
  | c :: t => c :: normEOL t

/-- Consume `\d+` (at least one digit, then the maximal digit run), returning
the rest of the input. -/
def digitsTail (l : List Char) : Option (List Char) :=
  match l with
  | c :: t => if isDigitC c then some (t.dropWhile isDigitC) else none
  | [] => none

/-- One attempted match of `\|\s*P\s*a\s*g\s*e\s*\d+` (case sensitive) at the
head of the input; on success returns the input rest after the match. -/
def matchPipePage (l : List Char) : Option (List Char) := do
  let r ← expectC '|' l
  let r ← expectC 'P' (dropSp r)
  let r ← expectC 'a' (dropSp r)
  let r ← expectC 'g' (dropSp r)
  let r ← expectC 'e' (dropSp r)
  digitsTail (dropSp r)

theorem dropWhile_len_le (p : Char → Bool) (l : List Char) :
    (l.dropWhile p).length ≤ l.length :=
  (List.dropWhile_suffix p).sublist.length_le

theorem dropSp_len_le (l : List Char) : (dropSp l).length ≤ l.length :=
  dropWhile_len_le pySpace l

theorem expectC_some {c : Char} {l r : List Char} (h : expectC c l = some r) :
    l = c :: r := by
  match l with
  | [] => simp [expectC] at h
  | x :: t =>
    simp only [expectC] at h
    split at h
    · rename_i hx
      simp only [Option.some.injEq] at h
      rw [hx, h]
    · simp at h

theorem digitsTail_length {l r : List Char} (h : digitsTail l = some r) :
    r.length < l.length := by
  match l with
  | [] => simp [digitsTail] at h
  | c :: t =>
    simp only [digitsTail] at h
    split at h
    · injection h with hr
      subst hr
      have := dropWhile_len_le isDigitC t
      simp only [List.length_cons]
      omega
    · simp at h

theorem matchPipePage_length {l r : List Char} (h : matchPipePage l = some r) :
    r.length < l.length := by
  simp only [matchPipePage, Option.bind_eq_bind, Option.bind_eq_some] at h
  obtain ⟨r1, h1, r2, h2, r3, h3, r4, h4, r5, h5, hfin⟩ := h
  have e1 := expectC_some h1
  have e2 := expectC_some h2
  have e3 := expectC_some h3
  have e4 := expectC_some h4
  have e5 := expectC_some h5
  have d1 := dropSp_len_le r1
  have d2 := dropSp_len_le r2
  have d3 := dropSp_len_le r3
  have d4 := dropSp_len_le r4
  have d5 := dropSp_len_le r5
  rw [e2] at d1; rw [e3] at d2; rw [e4] at d3; rw [e5] at d4
  have hlast : r.length < (dropSp r5).length := digitsTail_length hfin
  subst e1
  simp only [List.length_cons] at *
  omega

/-- Scanner for `re.sub(r'\|\s*P\s*a\s*g\s*e\s*\d+', '', text)`.  The fuel
argument makes the recursion structural (well-founded recursion does not
reduce inside the kernel); by `matchPipePage_length` every step consumes at
least one character, so fuel `l.length + 1` always suffices. -/
def pageSub1Go : Nat → List Char → List Char
  | 0, l => l
  | _, [] => []
  | f + 1, c :: t =>
    match matchPipePage (c :: t) with
    | some rest => pageSub1Go f rest
    | none => c :: pageSub1Go f t

/-- The substitution `re.sub(r'\|\s*P\s*a\s*g\s*e\s*\d+', '', text)`. -/
def pageSub1 (l : List Char) : List Char := pageSub1Go (l.length + 1) l

/-- Expect one character up to ASCII case at the head of the input. -/
def expectCI (c : Char) (l : List Char) : Option (List Char) :=
  match l with
  | x :: t => if eqCI x c then some t else none
  | [] => none

theorem expectCI_some {c : Char} {l r : List Char} (h : expectCI c l = some r) :
    ∃ x, l = x :: r := by
  match l with
  | [] => simp [expectCI] at h
  | x :: t =>
    simp only [expectCI] at h
    split at h
    · injection h with hr
      exact ⟨x, by rw [hr]⟩
    · simp at h

/-- Index of the last newline in a list, if any. -/
def lastNlIdx : List Char → Option Nat
  | [] => none
  | c :: t =>
    match lastNlIdx t with
    | some i => some (i + 1)
    | none => if c = '\n' then some 0 else none

theorem lastNlIdx_lt {l : List Char} {i : Nat} (h : lastNlIdx l = some i) :
    i < l.length := by
  induction l generalizing i with
  | nil => simp [lastNlIdx] at h
  | cons c t ih =>
    simp only [lastNlIdx] at h
    split at h
    · injection h with hi
      rename_i j hj
      have := ih hj
      simp only [List.length_cons]
      omega
    · split at h
      · injection h with hi
        simp only [List.length_cons]
        omega
      · simp at h

/-- One attempted match of `\n\s*Page\s+\d+\s*\n` (`re.IGNORECASE`) at the head
of the input; on success returns the input rest after the match (a run of
whitespace follows the digits; the regex consumes up to the last newline of
that run).  For this pattern the backtracking search is deterministic. -/
def p2Match (l : List Char) : Option (List Char) := do
  let r ← expectC '\n' l
  let r ← expectCI 'p' (dropSp r)
  let r ← expectCI 'a' r
  let r ← expectCI 'g' r
  let r ← expectCI 'e' r
  match r with
  | c :: _ =>
    if pySpace c then do
      let r2 ← digitsTail (dropSp r)
      match lastNlIdx (r2.takeWhile pySpace) with
      | some i => some (r2.drop (i + 1))
      | none => none
    else none
  | [] => none

theorem p2Match_length {l r : List Char} (h : p2Match l = some r) :
    r.length < l.length := by
  simp only [p2Match, Option.bind_eq_bind, Option.bind_eq_some] at h
  obtain ⟨r1, h1, r2, h2, r3, h3, r4, h4, r5, h5, hfin⟩ := h
  have e1 := expectC_some h1
  obtain ⟨x2, e2⟩ := expectCI_some h2
  obtain ⟨x3, e3⟩ := expectCI_some h3
  obtain ⟨x4, e4⟩ := expectCI_some h4
  obtain ⟨x5, e5⟩ := expectCI_some h5
  have d1 := dropSp_len_le r1
  rw [e2] at d1
  have hlast : r.length < r5.length := by
    match hr5 : r5 with
    | [] => simp at hfin
    | c :: t =>
      simp only at hfin
      split at hfin
      · simp only [Option.bind_eq_bind, Option.bind_eq_some] at hfin
        obtain ⟨r6, h6, hfin⟩ := hfin
        have hd6 : r6.length < (dropSp (c :: t)).length := digitsTail_length h6
        have hd7 : (dropSp (c :: t)).length ≤ (c :: t).length := dropSp_len_le _
        split at hfin
        · injection hfin with hr
          subst hr
          rename_i i hi
          have := List.length_drop (i + 1) r6
          simp only [List.length_cons] at *
          omega
        · simp at hfin
      · simp at hfin
  subst e1
  have l2 : (dropSp r1).length = r2.length + 1 := by rw [e2]; rfl
  have l3 : r2.length = r3.length + 1 := by rw [e3]; rfl
  have l4 : r3.length = r4.length + 1 := by rw [e4]; rfl
  have l5 : r4.length = r5.length + 1 := by rw [e5]; rfl
  have d0 : (dropSp r1).length ≤ r1.length := dropSp_len_le r1
  simp only [List.length_cons]
  omega

/-- Scanner for `re.sub(r'\n\s*Page\s+\d+\s*\n', '\n', text, re.IGNORECASE)`;
fuel as in `pageSub1Go`, justified by `p2Match_length`. -/
def pageSub2Go : Nat → List Char → List Char
  | 0, l => l
  | _, [] => []
  | f + 1, c :: t =>
    match p2Match (c :: t) with
    | some rest => '\n' :: pageSub2Go f rest
    | none => c :: pageSub2Go f t

/-- The substitution `re.sub(r'\n\s*Page\s+\d+\s*\n', '\n', text, re.IGNORECASE)`. -/
def pageSub2 (l : List Char) : List Char := pageSub2Go (l.length + 1) l

/-- One attempted match of `^\d{1,3}\s*$` (`re.MULTILINE`) at a line start; on
success returns the input rest after the match.  The digits must be a full run
of 1-3 digits; `\s*$` then consumes whitespace greedily up to either the end
of the string or the position just before the last newline of the following
whitespace run (`$` is zero width, so that newline is not consumed). -/
def dlMatch (l : List Char) : Option (List Char) :=
  let ds := l.takeWhile isDigitC
  if ds.length = 0 then none
  else if ds.length ≤ 3 then
    let r := l.dropWhile isDigitC
    if (r.dropWhile pySpace).isEmpty then some []
    else
      match lastNlIdx (r.takeWhile pySpace) with
      | some i => some (r.drop i)
      | none => none
  else none

theorem length_dropWhile_add_takeWhile (p : Char → Bool) (l : List Char) :
    (l.takeWhile p).length + (l.dropWhile p).length = l.length := by
  conv_rhs => rw [← List.takeWhile_append_dropWhile (p := p) (l := l)]
  rw [List.length_append]

theorem dlMatch_length {l r : List Char} (h : dlMatch l = some r) :
    r.length < l.length := by
  simp only [dlMatch] at h
  split at h
  · simp at h
  · split at h
    · rename_i hne _
      have hlen := length_dropWhile_add_takeWhile isDigitC l
      split at h
      · injection h with hr
        subst hr
        simp only [List.length_nil]
        omega
      · split at h
        · injection h with hr
          subst hr
          simp only [List.length_drop]
          omega
        · simp at h
    · simp at h

/-- Scanner for `re.sub(r'^\d{1,3}\s*$', '', text, re.MULTILINE)`; the boolean
records whether the current position is a line start.  Fuel as in
`pageSub1Go`, justified by `dlMatch_length`. -/
def digitLineGo : Nat → Bool → List Char → List Char
  | 0, _, l => l
  | _, _, [] => []
  | f + 1, atStart, c :: t =>
    if atStart then
      match dlMatch (c :: t) with
      | some rest => digitLineGo f false rest
      | none => c :: digitLineGo f (c == '\n') t
    else c :: digitLineGo f (c == '\n') t

/-- The substitution `re.sub(r'^\d{1,3}\s*$', '', text, flags=re.MULTILINE)`. -/
def digitLineSub (l : List Char) : List Char := digitLineGo (l.length + 1) true l

/-- The substitution `re.sub(r'[\x0c]', '', text)`. -/
def removeFF (l : List Char) : List Char := l.filter (fun c => !(c == '\x0c'))

/-- Scanner for `re.sub(r'\n{3,}', '\n\n', text)`; fuel as in `pageSub1Go`
(each step consumes at least one character). -/
def collapseNlGo : Nat → List Char → List Char
  | 0, l => l
  | _, [] => []
  | f + 1, '\n' :: '\n' :: '\n' :: t =>
    '\n' :: '\n' :: collapseNlGo f (t.dropWhile (· == '\n'))
  | f + 1, c :: t => c :: collapseNlGo f t

/-- The substitution `re.sub(r'\n{3,}', '\n\n', text)`. -/
def collapseNl (l : List Char) : List Char := collapseNlGo (l.length + 1) l

/-- Python `str.strip()`. -/
def stripList (l : List Char) : List Char :=
  ((l.dropWhile pySpace).reverse.dropWhile pySpace).reverse

/-- The body of `clean_text` (source lines 58-74) on a list of characters:
normalise line endings, remove both page-marker patterns, remove standalone
1-3 digit lines, remove form feeds, collapse runs of 3 or more newlines to
two, and strip outer whitespace. -/
def clean_text_list (l : List Char) : List Char :=
  stripList (collapseNl (removeFF (digitLineSub (pageSub2 (pageSub1 (normEOL l))))))

/-- `clean_text` (source lines 58-74): `None` when the input or the cleaned
text is empty. -/
def cleanTextL (l : List Char) : Option (List Char) :=
  match clean_text_list l with
  | [] => none
  | r => some r

/-- `clean_text` on strings. -/
def clean_text (s : String) : Option String :=
  (cleanTextL s.data).map (fun l => String.mk l)

/-!  Embedding of `clean_double_letter_encoding` (source lines 77-100). -/

/-- Number of non-overlapping matches of `([A-Za-z])\1`
(`len(re.findall(r'([A-Za-z])\1', text))`). -/
def countDoubles : List Char → Nat
  | a :: b :: t =>
    if isAlphaC a && a == b then countDoubles t + 1 else countDoubles (b :: t)
  | _ => 0

/-- Number of non-overlapping matches of `([A-Za-z])\1\1`. -/
def countTriples : List Char → Nat
  | a :: b :: c :: t =>
    if isAlphaC a && a == b && b == c then countTriples t + 1
    else countTriples (b :: c :: t)
  | _ => 0

/-- Number of letters (`len(re.findall(r'[A-Za-z]', text))`). -/
def countLetters (l : List Char) : Nat := (l.filter isAlphaC).length

/-- The substitution `re.sub(r'(.)\1\1', r'\1', text)`; `.` does not match a
newline. -/
def sub3All : List Char → List Char
  | a :: b :: c :: t =>
    if !(a == '\n') && a == b && b == c then a :: sub3All t
    else a :: sub3All (b :: c :: t)
  | l => l

/-- The substitution `re.sub(r'(.)\1', r'\1', text)`; `.` does not match a
newline. -/
def sub2All : List Char → List Char
  | a :: b :: t =>
    if !(a == '\n') && a == b then a :: sub2All t
    else a :: sub2All (b :: t)
  | l => l

/-- `clean_double_letter_encoding` (source lines 77-100).  The float test
`(double + triple*2) / (total_letters/2) > 0.2` is embedded as the integer
comparison `10 * (double + triple*2) > total_letters`, which agrees with the
IEEE double evaluation for all operand sizes that can occur here. -/
def clean_double_letter_encoding (l : List Char) : List Char :=
  let d := countDoubles l
  let tr := countTriples l
  let total := countLetters l
  if 20 < total ∧ total < 10 * (d + tr * 2) then sub2All (sub3All l)
  else l

/-!  Embedding of `extract_project_id` (source lines 27-55). -/

/-- The part of a path after the last slash (`os.path.basename` /
`pathlib.Path.name` for the filenames that occur here). -/
def basenameOf (l : List Char) : List Char :=
  (l.reverse.takeWhile (fun c => !(c == '/'))).reverse

/-- Index of the last occurrence of a character. -/
def lastIdxC (c : Char) : List Char → Option Nat
  | [] => none
  | x :: t =>
    match lastIdxC c t with
    | some i => some (i + 1)
    | none => if x = c then some 0 else none

/-- `pathlib.Path(basename).stem`: the name with its final extension removed
(the final dot must be neither the first nor the last character). -/
def stemOf (l : List Char) : List Char :=
  match lastIdxC '.' l with
  | some i => if 0 < i ∧ i + 1 < l.length then l.take i else l
  | none => l

/-- Fuelled scanner for `re.search(r'(\d{5,})', basename)`: the first maximal
digit run of length at least 5 (a shorter run is skipped whole, since no
suffix of it can start a 5-digit run). -/
def fiveRunGo : Nat → List Char → Option (List Char)
  | 0, _ => none
  | _, [] => none
  | f + 1, c :: t =>
    if isDigitC c then
      let run := (c :: t).takeWhile isDigitC
      if 5 ≤ run.length then some run
      else fiveRunGo f (t.dropWhile isDigitC)
    else fiveRunGo f t

/-- Leftmost match of `re.search(r'(\d{5,})', basename)`. -/
def fiveRun (l : List Char) : Option (List Char) := fiveRunGo (l.length + 1) l

/-- `extract_project_id` (source lines 27-55): leading digits followed by an
underscore, else leading digits, else any run of 5 or more digits, else the
filename stem.  (For `^(\d+)_` the greedy digit run is exactly the maximal
leading run because `_` is not a digit, so both leading-digit branches return
the maximal leading digit run.) -/
def extract_project_id (filename : List Char) : List Char :=
  let b := basenameOf filename
  let d := b.takeWhile isDigitC
  if d.length ≠ 0 && ((b.drop d.length).head? == some '_') then d
  else if d.length ≠ 0 then d
  else
    match fiveRun b with
    | some run => run
    | none => stemOf b

/-!  A small backtracking regular-expression engine for the extraction
cascades.  It implements the Python `re` semantics needed by the patterns of
the source file: leftmost search, greedy and lazy quantifiers with Python's
zero-width-repetition cut, character classes, lookahead and lookaround-free
capturing groups, `^`/`$`, and ASCII `re.IGNORECASE`.  All recursion is
fuelled so that every function is structural and reduces inside the kernel;
the fuel bounds used by the wrappers are generous enough for every concrete
evaluation in this file (a failed match caused by fuel exhaustion would make
the corresponding concrete theorem below fail to prove, since each concrete
result is stated exactly). -/

/-- One item of a character class. -/
inductive CItem where
  | ch (c : Char)
  | range (a b : Char)
  | pd | pD | ps | pS | pw | pW
  deriving DecidableEq

/-- Abstract syntax of the regular expressions used by the source. -/
inductive RE where
  | eps
  | anyc
  | lit (c : Char)
  | cls (neg : Bool) (items : List CItem)
  | cat (a b : RE)
  | alt (a b : RE)
  | rep (lazy : Bool) (lo : Nat) (hi : Option Nat) (a : RE)
  | grp (idx : Nat) (a : RE)
  | look (neg : Bool) (a : RE)
  | bol | eol
  deriving DecidableEq

/-- Python `\w` on ASCII text. -/
def isWordC (c : Char) : Bool := isAlphaC c || isDigitC c || c = '_'

/-- One class item against one character. -/
def citemMatch (c : Char) (it : CItem) : Bool :=
  match it with
  | .ch x => c = x
  | .range a b => a ≤ c && c ≤ b
  | .pd => isDigitC c
  | .pD => !isDigitC c
  | .ps => pySpace c
  | .pS => !pySpace c
  | .pw => isWordC c
  | .pW => !isWordC c

/-- Class membership, honouring `re.IGNORECASE` (a character matches if any of
its ASCII case variants matches; the test runs before negation, as in
Python). -/
def clsMatch (ci neg : Bool) (items : List CItem) (c : Char) : Bool :=
  let hit := items.any (citemMatch c) ||
    (ci && (items.any (citemMatch (lowerC c)) || items.any (citemMatch (upperC c))))
  if neg then !hit else hit

/-- Capture list entries: `(group index, start, stop)`; the most recent
capture of a group is listed first. -/
abbrev Caps := List (Nat × Nat × Nat)

/-- Backtracking matcher in continuation-passing style.  `pos` is the
absolute position inside the searched list and `rest` the corresponding
suffix.  The continuation receives the state after the current regex; the
first success in backtracking order is returned, giving Python's
leftmost/greedy/lazy priorities.  A repetition body that matches without
consuming input is cut, as in Python. -/
def mrun (ci mult : Bool) :
    Nat → RE → Nat → List Char → Caps →
    (Nat → List Char → Caps → Option (Nat × Caps)) → Option (Nat × Caps)
  | 0, _, _, _, _, _ => none
  | f + 1, re, pos, rest, caps, k =>
    match re with
    | .eps => k pos rest caps
    | .anyc =>
      match rest with
      | c :: t => if c = '\n' then none else k (pos + 1) t caps
      | [] => none
    | .lit c =>
      match rest with
      | x :: t => if (if ci then eqCI x c else x == c) then k (pos + 1) t caps else none
      | [] => none
    | .cls neg items =>
      match rest with
      | x :: t => if clsMatch ci neg items x then k (pos + 1) t caps else none
      | [] => none
    | .cat a b =>
      mrun ci mult f a pos rest caps (fun p r c => mrun ci mult f b p r c k)
    | .alt a b =>
      match mrun ci mult f a pos rest caps k with
      | some res => some res
      | none => mrun ci mult f b pos rest caps k
    | .rep lz lo hi a =>
      match lo with
      | lo' + 1 =>
        mrun ci mult f a pos rest caps (fun p r c =>
          mrun ci mult f (.rep lz lo' (hi.map (· - 1)) a) p r c k)
      | 0 =>
        match hi with
        | some 0 => k pos rest caps
        | _ =>
          if lz then
            match k pos rest caps with
            | some res => some res
            | none =>
              mrun ci mult f a pos rest caps (fun p r c =>
                if p = pos then none
                else mrun ci mult f (.rep lz 0 (hi.map (· - 1)) a) p r c k)
          else
            match mrun ci mult f a pos rest caps (fun p r c =>
                if p = pos then none
                else mrun ci mult f (.rep lz 0 (hi.map (· - 1)) a) p r c k) with
            | some res => some res
            | none => k pos rest caps
    | .grp i a =>
      mrun ci mult f a pos rest caps (fun p r c => k p r ((i, pos, p) :: c))
    | .look neg a =>
      match mrun ci mult f a pos rest caps (fun p _ c => some (p, c)) with
      | some _ => if neg then none else k pos rest caps
      | none => if neg then k pos rest caps else none
    | .bol => if pos = 0 then k pos rest caps else none
    | .eol =>
      match rest with
      | [] => k pos rest caps
      | '\n' :: t =>
        if mult then k pos rest caps
        else if t.isEmpty then k pos rest caps else none
      | _ => none

/-- Matcher fuel for a text suffix of the given length; generous for every
pattern and input in this file. -/
def mfuel (len : Nat) : Nat := (len + 2) * (len + 2) * 64 + 4000

/-- Leftmost search from successive start positions. -/
def searchGo (ci mult : Bool) (re : RE) :
    Nat → Nat → List Char → Option (Nat × Nat × Caps)
  | 0, _, _ => none
  | f + 1, pos, rest =>
    match mrun ci mult (mfuel rest.length) re pos rest [] (fun p _ c => some (p, c)) with
    | some (e, caps) => some (pos, e, caps)
    | none =>
      match rest with
      | [] => none
      | _ :: t => searchGo ci mult re f (pos + 1) t

/-- `re.search`: the leftmost match as `(start, stop, captures)`, with
positions relative to the searched list. -/
def reSearch (ci : Bool) (re : RE) (l : List Char) : Option (Nat × Nat × Caps) :=
  searchGo ci false re (l.length + 1) 0 l

/-- `re.finditer`: all non-overlapping matches, scanning from the end of
the previous match (advancing one position after an empty match). -/
def findIterGo (ci : Bool) (re : RE) :
    Nat → Nat → List Char → List (Nat × Nat × Caps)
  | 0, _, _ => []
  | f + 1, pos, rest =>
    match searchGo ci false re (rest.length + 1) pos rest with
    | some (s, e, caps) =>
      let nxt := if e > s then e else e + 1
      (s, e, caps) :: findIterGo ci re f nxt (rest.drop (nxt - pos))
    | none => []

/-- `re.finditer` over a list. -/
def reFindIter (ci : Bool) (re : RE) (l : List Char) : List (Nat × Nat × Caps) :=
  findIterGo ci re (l.length + 1) 0 l

/-- Span of a capture group in a capture list (the most recent one). -/
def capGet (caps : Caps) (i : Nat) : Option (Nat × Nat) :=
  match caps with
  | [] => none
  | (j, s, e) :: t => if j = i then some (s, e) else capGet t i

/-- The slice `l[s:e]`. -/
def sliceL (l : List Char) (s e : Nat) : List Char := (l.take e).drop s

/-- Contents of group `i` of a match over `l`. -/
def groupOf (l : List Char) (caps : Caps) (i : Nat) : Option (List Char) :=
  (capGet caps i).map (fun se => sliceL l se.1 se.2)

/-- `re.findall` for a pattern with exactly one group: the list of group-1
captures of all matches. -/
def reFindAll1 (ci : Bool) (re : RE) (l : List Char) : List (List Char) :=
  (reFindIter ci re l).filterMap (fun m => groupOf l m.2.2 1)

/-- `re.sub` with a literal replacement. -/
def reSubGo (ci : Bool) (re : RE) (repl : List Char) :
    Nat → Nat → List Char → List Char
  | 0, _, rest => rest
  | f + 1, pos, rest =>
    match searchGo ci false re (rest.length + 1) pos rest with
    | some (s, e, _) =>
      let pre := rest.take (s - pos)
      if e > s then
        pre ++ repl ++ reSubGo ci re repl f e (rest.drop (e - pos))
      else
        match rest.drop (s - pos) with
        | [] => pre ++ repl
        | c :: t => pre ++ repl ++ c :: reSubGo ci re repl f (e + 1) t
    | none => rest

/-- `re.sub` with a literal replacement over a list. -/
def reSub (ci : Bool) (re : RE) (repl : List Char) (l : List Char) : List Char :=
  reSubGo ci re repl (l.length + 1) 0 l

/-- Does the pattern match anywhere (`re.search(...)` used as a test)? -/
def reTest (ci : Bool) (re : RE) (l : List Char) : Bool :=
  (reSearch ci re l).isSome

/-!  A parser from Python regular-expression syntax (the fragment used by the
source file) to `RE`, so that every pattern below can be transcribed
verbatim.  The parser is fuelled; `patterns_all_parse` below checks that
every transcribed pattern parses successfully. -/

/-- Parse a decimal number. -/
def parseNum (l : List Char) : Option (Nat × List Char) :=
  let ds := l.takeWhile isDigitC
  if ds.isEmpty then none
  else some (ds.foldl (fun n c => n * 10 + (c.toNat - 48)) 0, l.dropWhile isDigitC)

/-- Value of a hexadecimal digit. -/
def hexVal (c : Char) : Option Nat :=
  if isDigitC c then some (c.toNat - 48)
  else if 'a' ≤ c && c ≤ 'f' then some (c.toNat - 87)
  else if 'A' ≤ c && c ≤ 'F' then some (c.toNat - 55)
  else none

/-- Class item denoted by an escape inside a character class. -/
def clsEscItem (c : Char) : CItem :=
  match c with
  | 'd' => .pd
  | 'D' => .pD
  | 's' => .ps
  | 'S' => .pS
  | 'w' => .pw
  | 'W' => .pW
  | 'n' => .ch '\n'
  | 't' => .ch '\t'
  | 'r' => .ch '\r'
  | 'f' => .ch '\x0c'
  | 'v' => .ch '\x0b'
  | c => .ch c

/-- Parse one class item (escape or plain character). -/
def parseClsOne (l : List Char) : Option (CItem × List Char) :=
  match l with
  | '\\' :: c :: t => some (clsEscItem c, t)
  | c :: t => some (.ch c, t)
  | [] => none

/-- Parse the items of a character class up to the closing bracket. -/
def parseClsItems : Nat → List Char → Option (List CItem × List Char)
  | 0, _ => none
  | _ + 1, [] => none
  | _ + 1, ']' :: t => some ([], t)
  | f + 1, l =>
    match parseClsOne l with
    | none => none
    | some (it, rest) =>
      match rest with
      | '-' :: ']' :: r3 => some ([it, .ch '-'], r3)
      | '-' :: r2 =>
        match it, parseClsOne r2 with
        | .ch a, some (.ch b, r3) =>
          match parseClsItems f r3 with
          | some (its, r4) => some (.range a b :: its, r4)
          | none => none
        | _, _ => none
      | _ =>
        match parseClsItems f rest with
        | some (its, r4) => some (it :: its, r4)
        | none => none

/-- Attach a quantifier (with optional laziness marker) to an atom. -/
def parseQuant (a : RE) (l : List Char) : Option (RE × List Char) :=
  let mk : Nat → Option Nat → List Char → Option (RE × List Char) := fun lo hi t =>
    match t with
    | '?' :: u => some (.rep true lo hi a, u)
    | _ => some (.rep false lo hi a, t)
  match l with
  | '*' :: t => mk 0 none t
  | '+' :: t => mk 1 none t
  | '?' :: t => mk 0 (some 1) t
  | '{' :: t =>
    match parseNum t with
    | some (m, '}' :: u) => mk m (some m) u
    | some (m, ',' :: '}' :: u) => mk m none u
    | some (m, ',' :: r2) =>
      match parseNum r2 with
      | some (n, '}' :: u) => mk m (some n) u
      | _ => none
    | _ => none
  | _ => some (a, l)

/-- Modes of the recursive-descent parser: alternation, concatenation,
quantified atom, atom.  A single mode-indexed function keeps the recursion
structural on the fuel so that it reduces inside the kernel. -/
inductive PMode where
  | alt | cat | piece | atom
  deriving DecidableEq

/-- Recursive-descent parsing step; mode `alt` parses a full alternation. -/
def parseStep : Nat → PMode → Nat → List Char → Option (RE × Nat × List Char)
  | 0, _, _, _ => none
  | f + 1, .alt, g, l =>
    match parseStep f .cat g l with
    | none => none
    | some (r1, g1, rest) =>
      match rest with
      | '|' :: t =>
        match parseStep f .alt g1 t with
        | some (r2, g2, rest2) => some (.alt r1 r2, g2, rest2)
        | none => none
      | _ => some (r1, g1, rest)
  | f + 1, .cat, g, l =>
    match l with
    | [] => some (.eps, g, [])
    | ')' :: _ => some (.eps, g, l)
    | '|' :: _ => some (.eps, g, l)
    | _ =>
      match parseStep f .piece g l with
      | none => none
      | some (p, g1, r1) =>
        match parseStep f .cat g1 r1 with
        | some (q, g2, r2) => some (.cat p q, g2, r2)
        | none => none
  | f + 1, .piece, g, l =>
    match parseStep f .atom g l with
    | none => none
    | some (a, g1, r1) =>
      match parseQuant a r1 with
      | some (q, r2) => some (q, g1, r2)
      | none => none
  | f + 1, .atom, g, l =>
    match l with
    | '(' :: '?' :: ':' :: t =>
      match parseStep f .alt g t with
      | some (r, g1, ')' :: rest) => some (r, g1, rest)
      | _ => none
    | '(' :: '?' :: '=' :: t =>
      match parseStep f .alt g t with
      | some (r, g1, ')' :: rest) => some (.look false r, g1, rest)
      | _ => none
    | '(' :: '?' :: '!' :: t =>
      match parseStep f .alt g t with
      | some (r, g1, ')' :: rest) => some (.look true r, g1, rest)
      | _ => none
    | '(' :: t =>
      match parseStep f .alt (g + 1) t with
      | some (r, g1, ')' :: rest) => some (.grp (g + 1) r, g1, rest)
      | _ => none
    | '[' :: '^' :: t =>
      match parseClsItems f t with
      | some (its, rest) => some (.cls true its, g, rest)
      | none => none
    | '[' :: t =>
      match parseClsItems f t with
      | some (its, rest) => some (.cls false its, g, rest)
      | none => none
    | '\\' :: 'x' :: h1 :: h2 :: t =>
      match hexVal h1, hexVal h2 with
      | some a, some b => some (.lit (Char.ofNat (a * 16 + b)), g, t)
      | _, _ => none
    | '\\' :: c :: t =>
      match c with
      | 'd' => some (.cls false [.pd], g, t)
      | 'D' => some (.cls false [.pD], g, t)
      | 's' => some (.cls false [.ps], g, t)
      | 'S' => some (.cls false [.pS], g, t)
      | 'w' => some (.cls false [.pw], g, t)
      | 'W' => some (.cls false [.pW], g, t)
      | 'n' => some (.lit '\n', g, t)
      | 't' => some (.lit '\t', g, t)
      | 'r' => some (.lit '\r', g, t)
      | 'f' => some (.lit '\x0c', g, t)
      | 'v' => some (.lit '\x0b', g, t)
      | c =>
        if isDigitC c || isAlphaC c then none
        else some (.lit c, g, t)
    | '.' :: t => some (.anyc, g, t)
    | '^' :: t => some (.bol, g, t)
    | '$' :: t => some (.eol, g, t)
    | c :: t => some (.lit c, g, t)
    | [] => none

/-- Parse a full pattern string; fails unless the whole pattern is consumed. -/
def parsePat (s : String) : Option RE :=
  match parseStep (s.length * 4 + 32) .alt 0 s.data with
  | some (r, _, []) => some r
  | _ => none

/-- The parsed form of a pattern, with a never-matching fallback
(`patterns_all_parse` below proves the fallback is never used). -/
def pat (s : String) : RE := (parsePat s).getD (.cls false [])

/-!  Shared helpers for the extraction cascades of
`extract_challenges` / `extract_brief_description`. -/

/-- Group 1 of the leftmost match of a pattern
(`re.search(...)` followed by `match.group(1)`). -/
def searchCap1 (ci : Bool) (p : RE) (content : List Char) : Option (List Char) :=
  (reSearch ci p content).bind (fun m => groupOf content m.2.2 1)

/-- Group 0 (the whole match) of the leftmost match of a pattern. -/
def searchCap0 (ci : Bool) (p : RE) (content : List Char) : Option (List Char) :=
  (reSearch ci p content).map (fun m => sliceL content m.1 m.2.1)

/-- The common loop `for pattern in pats: m = re.search(...); if m:
text = m.group(1); cleaned = clean_text(text); if cleaned and
len(cleaned) > thr: return cleaned` (a match whose cleaned text fails the
threshold does not stop the loop). -/
def tryPats (thr : Nat) (pats : List RE) (content : List Char) : Option (List Char) :=
  pats.findSome? fun p =>
    (searchCap1 true p content).bind fun text =>
      (cleanTextL text).bind fun c =>
        if thr < c.length then some c else none

/-- Forward capture used by the section extractors: search for the end
pattern in `content[start:]` and cut there, else cut after `cap`
characters. -/
def fwdSection (content : List Char) (start : Nat) (endPat : RE) (cap : Nat) :
    List Char :=
  let rest := content.drop start
  match reSearch true endPat rest with
  | some (s, _, _) => rest.take s
  | none => rest.take cap

/-- The separator used when several accepted sub-matches are concatenated. -/
def sepJoin : List Char := "\n\n---\n\n".data

/-- The common epilogue `if results: return results[0] if len(results)==1
else SEP.join(results)`. -/
def joinResults (rs : List (List Char)) : Option (List Char) :=
  match rs with
  | [] => none
  | [x] => some x
  | xs => some (List.intercalate sepJoin xs)

/-- The first-100-characters deduplication loop (`seen` set plus `if r:`
filter on optional entries). -/
def dedup100Go (seen : List (List Char)) : List (Option (List Char)) → List (List Char)
  | [] => []
  | none :: t => dedup100Go seen t
  | some r :: t =>
    let key := r.take 100
    if seen.contains key then dedup100Go seen t
    else r :: dedup100Go (key :: seen) t

/-- Deduplicate candidate spans whose first 100 characters coincide,
keeping first occurrences and dropping `None` entries. -/
def dedup100 (rs : List (Option (List Char))) : List (List Char) :=
  dedup100Go [] rs

/-- Python `content.split('\n\n')`. -/
def splitOn2Nl : List Char → List (List Char)
  | [] => [[]]
  | '\n' :: '\n' :: t => [] :: splitOn2Nl t
  | c :: t =>
    match splitOn2Nl t with
    | h :: rest => (c :: h) :: rest
    | [] => [[c]]

/-- Index of the start of the last occurrence of `"\n\n"` in a list
(Python `str.rfind('\n\n')` restricted to a prefix). -/
def lastNlNl : List Char → Option Nat
  | '\n' :: '\n' :: t =>
    match lastNlNl ('\n' :: t) with
    | some i => some (i + 1)
    | none => some 0
  | _ :: t =>
    match lastNlNl t with
    | some i => some (i + 1)
    | none => none
  | [] => none

/-!  Embedding of `extract_challenges` (source lines 612-1129).  Every
pattern string below is transcribed verbatim from the source (with string
escaping).  All the cascade searches use `re.IGNORECASE`; the interior
coherence test `\.\s+[A-Z]` and the bullet/numbered-content searches of
pattern group 4 are case sensitive, as in the source. -/

/-- PATTERN GROUP 0 patterns (`gef_problem_patterns`). -/
def gefProblemPats : List RE :=
  [pat "A\\.?\\s*4\\.?\\s*(?:The\\s+)?baseline\\s+project\\s+and\\s+(?:the\\s+)?problem(?:\\s+that\\s+it\\s+seeks\\s+to\\s+address)?",
   pat "A\\.?\\s*\\d+\\.?\\s*(?:The\\s+)?problem(?:\\s+that\\s+it\\s+seeks)?\\s+to\\s+(?:be\\s+)?address"]

/-- End boundary of a GEF problem section. -/
def gefEndPat : RE := pat "\\n\\s*(?:A\\.?\\s*[5-9]|B\\.?\\s+[A-Z]|C\\.?\\s+)"

/-- One GEF match: cut at the end boundary (cap 30000), accept when the raw
section exceeds 200 characters and the cleaned section exceeds 100. -/
def gefOne (content : List Char) (m : Nat × Nat × Caps) : Option (List Char) :=
  let sect := fwdSection content m.2.1 gefEndPat 30000
  if 200 < sect.length then
    (cleanTextL sect).bind fun c => if 100 < c.length then some c else none
  else none

/-- The "Barriers" standalone-header pattern. -/
def barriersHeaderPat : RE := pat "\\n\\s*Barriers?\\s*\\n"

/-- End boundary of a "Barriers" section. -/
def barriersEndPat : RE :=
  pat "\\n\\s*(?:\\d+\\)\\s+[A-Z]|[A-Z]\\.\\s+[A-Z]|Component\\s+\\d)"

/-- The "Barriers" section (header included, end searched from the header
end, cap 20000), accepted when longer than 100 characters and cleaned. -/
def barriersResult (content : List Char) : Option (List Char) :=
  match reSearch true barriersHeaderPat content with
  | some (s, e, _) =>
    let sect :=
      match reSearch true barriersEndPat (content.drop e) with
      | some (es, _, _) => sliceL content s (e + es)
      | none => sliceL content s (s + 20000)
    if 100 < sect.length then cleanTextL sect else none
  | none => none

/-- The inline `Barrier #N:` pattern (`barrier_numbered_pattern`). -/
def barrierNumPat : RE :=
  pat "(Barrier\\s*#?\\s*\\d+\\s*[:\\-][^\\n]+(?:\\n(?!Barrier\\s*#?\\s*\\d+)[^\\n]+)*)"

/-- Raw candidate list of the pooled highest-priority group: GEF problem
sections, the "Barriers" section, and (only when those produced nothing)
the cleaned concatenation of inline `Barrier #N:` matches, which may be
`None`. -/
def group0Results (content : List Char) : List (Option (List Char)) :=
  let gef := gefProblemPats.flatMap fun p =>
    (reFindIter true p content).filterMap (gefOne content)
  let base := (gef ++ (barriersResult content).toList).map some
  let barMatches := reFindAll1 true barrierNumPat content
  if barMatches ≠ [] ∧ base = [] then
    let combined := List.intercalate "\n\n".data barMatches
    if 100 < combined.length then base ++ [cleanTextL combined] else base
  else base

/-- PATTERN GROUP 0 with the "Barriers" additions: deduplicate by the first
100 characters and concatenate. -/
def gefBarriersGroup (content : List Char) : Option (List Char) :=
  joinResults (dedup100 (group0Results content))

/-- The `Problem to be addressed:` standalone patterns. -/
def problemStandalonePats : List RE :=
  [pat "Problem(?:s)?\\s+to\\s+be\\s+addressed\\s*[:\\-]\\s*\\n([\\s\\S]*?)(?=\\n\\s*(?:Background|Expected\\s+target|Counterpart|Project\\s+purpose|[A-Z]\\.\\s+[A-Z]))",
   pat "Problem(?:s)?\\s+to\\s+be\\s+addressed\\s*[:\\-]\\s*\\n([\\s\\S]*?)(?=\\n\\n[A-Z][a-z]+\\s*\\n)"]

/-- The `Problem to be addressed:` group. -/
def problemStandaloneGroup (content : List Char) : Option (List Char) :=
  tryPats 100 problemStandalonePats content

/-- The `THEREFORE, THE PROBLEMS TO BE ADDRESSED ARE:` pattern. -/
def thereforePat : RE :=
  pat "THEREFORE,?\\s+THE\\s+PROBLEMS?\\s+TO\\s+BE\\s+ADDRESSED\\s+(?:ARE|IS)\\s*[:\\-]?\\s*\\n([\\s\\S]*?)(?=\\n\\s*(?:In\\s+order\\s+to|In\\s+this\\s+context|UNIDO|[A-Z]\\.\\s+[A-Z]))"

/-- The `THEREFORE ...` group. -/
def thereforeGroup (content : List Char) : Option (List Char) :=
  tryPats 100 [thereforePat] content

/-- The `B.1 Problems to be addressed` patterns. -/
def b1ProblemsPats : List RE :=
  [pat "B\\.?\\s*1\\.?\\s*Problems?\\s+to\\s+be\\s+addressed\\s*\\n([\\s\\S]*?)(?=\\n\\s*(?:B\\.?\\s*2|B\\.?\\s*\\d+\\.?\\s*Expected|C\\.?\\s+|There\\s+is\\s+an\\s+urgent))",
   pat "B\\.?\\s*1\\.?\\s*Problems?\\s+to\\s+be\\s+addressed\\s*\\n([\\s\\S]*?)(?=\\n\\s*B\\.?\\s*\\d+)"]

/-- The `B.1 Problems to be addressed` group. -/
def b1Group (content : List Char) : Option (List Char) :=
  tryPats 100 b1ProblemsPats content

/-- The `A.1. Problems to be addressed` patterns. -/
def a1ProblemsPats : List RE :=
  [pat "A\\.?\\s*1\\.?\\s*Problems?\\s+to\\s+be\\s+addressed\\s*\\n([\\s\\S]*?)(?=\\n\\s*(?:A\\.?\\s*2|Map\\s+of|Damage\\s+caused|[A-Z][a-z]+\\s+of\\s+[A-Z]))",
   pat "A\\.?\\s*1\\.?\\s*Problems?\\s+to\\s+be\\s+addressed\\s*\\n([\\s\\S]*?)(?=\\n\\s*A\\.?\\s*\\d+)"]

/-- The `A.1. Problems to be addressed` group. -/
def a1Group (content : List Char) : Option (List Char) :=
  tryPats 100 a1ProblemsPats content

/-- PATTERN GROUP 0.5 patterns (`pif_problem_patterns`). -/
def pifProblemPats : List RE :=
  [pat "B\\.?\\s*1\\.?\\s*(?:Describe\\s+the\\s+)?baseline\\s+(?:project\\s+and\\s+(?:the\\s+)?)?problem(?:\\s+that\\s+it\\s+seeks\\s+to\\s+address)?",
   pat "B\\.?\\s*1\\.?\\s*Describe\\s+the\\s+baseline\\s+project"]

/-- End boundary of a PIF baseline-problem section. -/
def pifEndPat : RE := pat "\\n\\s*(?:B\\.?\\s*[2-9]|C\\.?\\s+|PART\\s+)"

/-- One PIF match: cut at the end boundary (cap 30000), accept when the raw
section exceeds 200 characters and the cleaned section exceeds 100. -/
def pifOne (content : List Char) (m : Nat × Nat × Caps) : Option (List Char) :=
  let sect := fwdSection content m.2.1 pifEndPat 30000
  if 200 < sect.length then
    (cleanTextL sect).bind fun c => if 100 < c.length then some c else none
  else none

/-- Accepted candidates of PATTERN GROUP 0.5 (no deduplication). -/
def pifResults (content : List Char) : List (List Char) :=
  pifProblemPats.flatMap fun p =>
    (reFindIter true p content).filterMap (pifOne content)

/-- PATTERN GROUP 0.5 (`B.1. Describe the baseline project and the
problem`). -/
def pifGroup (content : List Char) : Option (List Char) :=
  joinResults (pifResults content)

/-- PATTERN GROUP 1 patterns (`a2_patterns`). -/
def a2Pats : List RE :=
  [pat "A\\.?\\s*2\\.?\\s*(?:THEMATIC\\s+CONTEXT[:\\s]*)?CHALLENGES\\s+TO\\s+BE\\s+ADDRESSED",
   pat "A\\.?\\s*2\\.?\\s*(?:GLOBAL\\s+)?(?:CURRENT\\s+)?SITUATION\\s+AND\\s+PROBLEMS?/?CHALLENGES?",
   pat "A\\.?\\s*2\\.?\\s*PROBLEMS?\\s+(?:AND\\s+)?CHALLENGES?",
   pat "A\\.?\\s*2\\.?\\s*Problems?\\s+to\\s+be\\s+addressed"]

/-- End boundary of an A.2 challenges section. -/
def a2EndPat : RE := pat "\\n\\s*(?:A\\.?\\s*3\\s|B\\.?\\s+[A-Z]|C\\.?\\s+[A-Z]|PART\\s+)"

/-- The coherence test `\.\s+[A-Z]` (case sensitive). -/
def cohPat : RE := pat "\\.\\s+[A-Z]"

/-- One A.2 match: cut at the end boundary (cap 50000), accept when the raw
section exceeds 300 characters, passes the coherence test, and cleans to
more than 100 characters. -/
def a2One (content : List Char) (m : Nat × Nat × Caps) : Option (List Char) :=
  let sect := fwdSection content m.2.1 a2EndPat 50000
  if 300 < sect.length ∧ reTest false cohPat sect then
    (cleanTextL sect).bind fun c => if 100 < c.length then some c else none
  else none

/-- Accepted candidates of PATTERN GROUP 1 (no deduplication). -/
def a2Results (content : List Char) : List (List Char) :=
  a2Pats.flatMap fun p => (reFindIter true p content).filterMap (a2One content)

/-- PATTERN GROUP 1 (`CHALLENGES TO BE ADDRESSED`, UNIDO format). -/
def a2Group (content : List Char) : Option (List Char) :=
  joinResults (a2Results content)

/-- The `Situation Analysis` heading pattern. -/
def situationAnalysisPat : RE :=
  pat "(?:\\d+\\.?\\s*)?Situation\\s+Analysis\\s*\\n([\\s\\S]*?)(?=\\n\\s*(?:\\d+\\.?\\s*[A-Z][a-z]+\\s+[A-Z]|NDS\\s+and|Assessment\\s+of|[A-Z]\\.\\s+[A-Z]))"

/-- Keyword gate of the `Situation Analysis` group. -/
def situationKwPat : RE :=
  pat "unemploy|poverty|constraint|challenge|problem|crisis|lack\\s+of|deficit|obstacle"

/-- The `Situation Analysis` keyword-gated group. -/
def situationAnalysisGroup (content : List Char) : Option (List Char) :=
  (searchCap1 true situationAnalysisPat content).bind fun text =>
    if reTest true situationKwPat text then
      (cleanTextL text).bind fun c => if 200 < c.length then some c else none
    else none

/-- The `Background` crisis pattern. -/
def backgroundCrisisPat : RE :=
  pat "(?:A\\.?\\s*)?Background\\s*\\n([\\s\\S]*?)(?=\\n\\s*(?:B\\.?\\s+|C\\.?\\s+|Objectives?\\s*\\n|\\d+\\.\\s+[A-Z]))"

/-- Keyword gate of the `Background` crisis group. -/
def backgroundKwPat : RE :=
  pat "civil\\s+war|crisis|destroy|devastat|lack\\s+of|shortage|inadequate|insufficient|gap\\s+in|problem|challenge|constrain"

/-- The `Background` keyword-gated group (cleaned length in (200, 10000)). -/
def backgroundCrisisGroup (content : List Char) : Option (List Char) :=
  (searchCap1 true backgroundCrisisPat content).bind fun text =>
    if reTest true backgroundKwPat text then
      (cleanTextL text).bind fun c =>
        if 200 < c.length ∧ c.length < 10000 then some c else none
    else none

/-- PATTERN GROUP 1.5 patterns (`situation_patterns`). -/
def situationPats : List RE :=
  [pat "(?:main|major|key)\\s+(?:socio-economic\\s+)?challenges\\s+(?:facing|include|are)[:\\s]*([\\s\\S]*?)(?=\\n\\s*(?:II\\.|2\\.|To\\s+alleviate|In\\s+response|The\\s+project))",
   pat "Barriers?\\s+(?:for|to)\\s+(?:effective\\s+)?[^\\n]+\\n([\\s\\S]*?)(?=\\n\\s*(?:II\\.|2\\.|[A-Z]\\.\\s+|The\\s+project))"]

/-- Accepted candidates of PATTERN GROUP 1.5: the whole match (`group(0)`),
cleaned to more than 100 characters. -/
def situationResults (content : List Char) : List (List Char) :=
  situationPats.flatMap fun p =>
    (reFindIter true p content).filterMap fun m =>
      (cleanTextL (sliceL content m.1 m.2.1)).bind fun c =>
        if 100 < c.length then some c else none

/-- PATTERN GROUP 1.5 (`SITUATION ANALYSIS` with challenges, UNDP format). -/
def situationGroup (content : List Char) : Option (List Char) :=
  joinResults (situationResults content)

/-- PATTERN GROUP 1.6 patterns (`numbered_challenges_patterns`). -/
def numberedChallengesPats : List RE :=
  [pat "\\d+\\.?\\s*\\d*\\.?\\s*Challenges?\\s+to\\s+be\\s+addressed\\s*\\n([\\s\\S]*?)(?=\\n\\s*(?:\\d+\\.?\\s*\\d*\\.?\\s*[A-Z][a-z]+|[A-Z]\\.\\s+|\\d+\\.0\\s+))",
   pat "Challenges?\\s+to\\s+be\\s+addressed\\s*\\n([\\s\\S]*?)(?=\\n\\s*(?:\\d+\\.\\s*[A-Z]|[A-Z]\\.\\s+|II\\.|2\\.))"]

/-- Accepted candidates of PATTERN GROUP 1.6: group 1 with raw length over
200 and cleaned length over 100. -/
def numberedChallengesResults (content : List Char) : List (List Char) :=
  numberedChallengesPats.flatMap fun p =>
    (reFindIter true p content).filterMap fun m =>
      (groupOf content m.2.2 1).bind fun text =>
        if 200 < text.length then
          (cleanTextL text).bind fun c => if 100 < c.length then some c else none
        else none

/-- PATTERN GROUP 1.6 (numbered `Challenges to be addressed`). -/
def numberedChallengesGroup (content : List Char) : Option (List Char) :=
  joinResults (numberedChallengesResults content)

/-- The `Key constraints` patterns. -/
def constraintsPats : List RE :=
  [pat "(?:key|main|major)\\s+constraints?\\s+(?:include|are|facing)[:\\s]*([\\s\\S]*?)(?=\\n\\s*(?:In\\s+the\\s+case|The\\s+lack|[A-Z]\\.\\s+[A-Z]))",
   pat "constraints?\\s+(?:that\\s+)?(?:seriously\\s+)?(?:inhibit|limit|hinder)[^\\n]*\\n([\\s\\S]*?)(?=\\n\\s*(?:In\\s+the\\s+case|[A-Z]\\.\\s+[A-Z]|\\d+\\.\\s+[A-Z]))"]

/-- The `Key constraints` group (the whole match, cleaned over 100). -/
def constraintsGroup (content : List Char) : Option (List Char) :=
  constraintsPats.findSome? fun p =>
    (searchCap0 true p content).bind fun text =>
      (cleanTextL text).bind fun c => if 100 < c.length then some c else none

/-- PATTERN GROUP 1.7 patterns (`numbered_topic_challenges_patterns`). -/
def topicChallengesPats : List RE :=
  [pat "\\d+\\.?\\s*Challenges?\\s+to\\s+[^\\n]+\\n([\\s\\S]*?)(?=\\n\\s*(?:\\d+\\.?\\s*(?:Problem|Objective|Expected|Project)|[A-Z]\\.\\s+))",
   pat "\\d+\\.?\\s*Problem\\s+Statement\\s*\\n([\\s\\S]*?)(?=\\n\\s*(?:\\d+\\.?\\s*[A-Z]|[A-Z]\\.\\s+))"]

/-- Accepted candidates of PATTERN GROUP 1.7: group 1 with raw length over
100 and cleaned length over 50. -/
def topicChallengesResults (content : List Char) : List (List Char) :=
  topicChallengesPats.flatMap fun p =>
    (reFindIter true p content).filterMap fun m =>
      (groupOf content m.2.2 1).bind fun text =>
        if 100 < text.length then
          (cleanTextL text).bind fun c => if 50 < c.length then some c else none
        else none

/-- PATTERN GROUP 1.7 (numbered `Challenges to [Topic]`). -/
def topicChallengesGroup (content : List Char) : Option (List Char) :=
  joinResults (topicChallengesResults content)

/-- PATTERN GROUP 2 header (`standalone_pattern`). -/
def standalonePat : RE := pat "\\n\\s*CHALLENGES?\\s+TO\\s+BE\\s+ADDRESSED\\s*\\n"

/-- End boundary of a standalone challenges section. -/
def standaloneEndPat : RE :=
  pat "\\n\\s*(?:[A-Z]\\.?\\s*\\d|\\d+\\.\\s+[A-Z]|[IVX]+\\.\\s+|PART\\s+)"

/-- Accepted candidates of PATTERN GROUP 2: section after the header (cap
30000), raw length over 200, coherence test, cleaned over 100. -/
def standaloneResults (content : List Char) : List (List Char) :=
  (reFindIter true standalonePat content).filterMap fun m =>
    let sect := fwdSection content m.2.1 standaloneEndPat 30000
    if 200 < sect.length ∧ reTest false cohPat sect then
      (cleanTextL sect).bind fun c => if 100 < c.length then some c else none
    else none

/-- PATTERN GROUP 2 (standalone `CHALLENGES TO BE ADDRESSED`). -/
def standaloneGroup (content : List Char) : Option (List Char) :=
  joinResults (standaloneResults content)

/-- PATTERN GROUP 3 patterns (`problem_patterns`). -/
def problemPats : List RE :=
  [pat "\\n\\s*(?:Problem|Issue)s?\\s+(?:Statement|Analysis|Description|Identification)\\s*\\n",
   pat "\\n\\s*(?:Key\\s+)?(?:Problems?|Issues?)\\s+(?:to\\s+be\\s+)?(?:Addressed|Identified|Tackled)\\s*\\n",
   pat "\\n\\s*(?:Main|Major|Key)\\s+(?:Problems?|Challenges?|Issues?|Constraints?)\\s*\\n",
   pat "\\n\\s*(?:Development\\s+)?(?:Problem|Challenge)\\s+(?:Analysis|Statement)\\s*\\n",
   pat "\\n\\s*[IVX]+\\.?\\s*Problem\\s+Statement\\s*\\n"]

/-- End boundary of a problem-statement section. -/
def problemEndPat : RE :=
  pat "\\n\\s*(?:[A-Z]\\.?\\s*\\d|\\d+\\.\\s+[A-Z]|[IVX]+\\.\\s+|II\\.\\s+|III\\.\\s+)"

/-- Accepted candidates of PATTERN GROUP 3: section after the header (cap
20000), raw length over 100, any non-empty cleaned text. -/
def problemResults (content : List Char) : List (List Char) :=
  problemPats.flatMap fun p =>
    (reFindIter true p content).filterMap fun m =>
      let sect := fwdSection content m.2.1 problemEndPat 20000
      if 100 < sect.length then cleanTextL sect else none

/-- PATTERN GROUP 3 (problem statement sections). -/
def problemGroup (content : List Char) : Option (List Char) :=
  joinResults (problemResults content)

/-- PATTERN GROUP 4 patterns (`context_patterns`). -/
def contextPats : List RE :=
  [pat "(?:challenges?\\s+facing\\s+the\\s+(?:industrial|manufacturing|SME|country)|challenges?\\s+include\\s*[:\\n])",
   pat "(?:key|main|major)\\s+(?:challenges?|problems?|constraints?|issues?)\\s+(?:include|are|identified)\\s*[:\\n]",
   pat "(?:industries?|sector|enterprises?|SMEs?)\\s+face\\s+(?:the\\s+following\\s+)?(?:major\\s+)?(?:challenges?|problems?)"]

/-- Bullet-list content following a context anchor (case sensitive). -/
def bulletContentPat : RE := pat "((?:\\s*[•\\-\\*\\►\\●]\\s*[^\\n]+\\n?)+)"

/-- Numbered-list content following a context anchor (case sensitive). -/
def numberedContentPat : RE := pat "((?:\\s*\\d+[\\.\\)]\\s*[^\\n]+\\n?)+)"

/-- Paragraph-end boundary used by PATTERN GROUP 4 (case sensitive). -/
def contextEndPat : RE := pat "\\n\\n\\s*(?:\\d+\\.\\s+[A-Z]|[A-Z][a-z]+\\s+[A-Z])"

/-- One PATTERN GROUP 4 match: capture from the enclosing paragraph start to
the end of a following bullet or numbered list (searched in a 5000-character
window), else to the paragraph-end boundary, else 5000 characters; accept
when the raw span exceeds 100 characters and cleans to something. -/
def contextOne (content : List Char) (m : Nat × Nat × Caps) : Option (List Char) :=
  let paraStart :=
    match lastNlNl (content.take m.1) with
    | some i => i + 2
    | none => 1
  let searchStart := m.2.1
  let window := (content.drop searchStart).take 5000
  let stop :=
    match reSearch false bulletContentPat window with
    | some (_, be, _) => searchStart + be
    | none =>
      match reSearch false numberedContentPat window with
      | some (_, ne, _) => searchStart + ne
      | none =>
        match reSearch false contextEndPat (content.drop searchStart) with
        | some (es, _, _) => searchStart + es
        | none => min content.length (searchStart + 5000)
  let sect := sliceL content paraStart stop
  if 100 < sect.length then cleanTextL sect else none

/-- Accepted candidates of PATTERN GROUP 4. -/
def contextResults (content : List Char) : List (List Char) :=
  contextPats.flatMap fun p =>
    (reFindIter true p content).filterMap (contextOne content)

/-- PATTERN GROUP 4 (context sections with challenge lists), deduplicated by
first 100 characters. -/
def contextGroup (content : List Char) : Option (List Char) :=
  joinResults (dedup100 ((contextResults content).map some))

/-- PATTERN GROUP 5 patterns (`bullet_patterns`). -/
def bulletPats : List RE :=
  [pat "(?:challenges?|problems?|constraints?|issues?)\\s*(?:include|are|facing)?[:\\s]*\\n((?:\\s*[•\\-\\*\\►\\●]\\s*[^\\n]+\\n?){2,})",
   pat "(?:the\\s+following|these)\\s+(?:challenges?|problems?|issues?)[:\\s]*\\n((?:\\s*[•\\-\\*\\►\\●\\d]+[\\.\\)]\\s*[^\\n]+\\n?){2,})"]

/-- Accepted candidates of PATTERN GROUP 5: the whole match cleaned to more
than 50 characters. -/
def bulletResults (content : List Char) : List (List Char) :=
  bulletPats.flatMap fun p =>
    (reFindIter true p content).filterMap fun m =>
      (cleanTextL (sliceL content m.1 m.2.1)).bind fun c =>
        if 50 < c.length then some c else none

/-- PATTERN GROUP 5 (bullet-point challenges), deduplicated by first 100
characters. -/
def bulletGroup (content : List Char) : Option (List Char) :=
  joinResults (dedup100 ((bulletResults content).map some))

/-- PATTERN GROUP 6 pattern (`context_section_patterns`). -/
def contextSectionPat : RE :=
  pat "A\\.?\\s*CONTEXT\\s*\\n([\\s\\S]*?)(?=\\n\\s*(?:B\\.?\\s+|II\\.|2\\.\\s+[A-Z]))"

/-- Keyword gate of PATTERN GROUP 6. -/
def contextSectionKwPat : RE :=
  pat "problem|challeng|threat|risk|pollut|contamin|danger|hazard"

/-- PATTERN GROUP 6 (`A. CONTEXT` with problem description). -/
def contextSectionGroup (content : List Char) : Option (List Char) :=
  (searchCap1 true contextSectionPat content).bind fun text =>
    if reTest true contextSectionKwPat text then
      (cleanTextL text).bind fun c => if 200 < c.length then some c else none
    else none

/-- PATTERN GROUP 7 patterns (`dev_challenge_patterns`). -/
def devChallengePats : List RE :=
  [pat "\\d+\\s+(?:THE\\s+)?DEVELOPMENT\\s+CHALLENGE[:\\s]*\\n(?:[^\\n]+\\n)?([\\s\\S]*?)(?=\\n\\s*(?:\\d+\\s+[A-Z]|[A-Z]\\.\\s+|PART\\s+))",
   pat "DEVELOPMENT\\s+CHALLENGE[:\\s]*\\n([\\s\\S]*?)(?=\\n\\s*(?:\\d+\\s+[A-Z]|[A-Z]\\.\\s+|Value\\s+Chain))"]

/-- PATTERN GROUP 7 (`DEVELOPMENT CHALLENGE` section). -/
def devChallengeGroup (content : List Char) : Option (List Char) :=
  tryPats 100 devChallengePats content

/-- The `REASONS FOR UNIDO ASSISTANCE` pattern. -/
def reasonsPat : RE :=
  pat "(?:B\\.?\\s*)?REASONS?\\s+FOR\\s+UNIDO\\s+ASSISTANCE\\s*\\n([\\s\\S]*?)(?=\\n\\s*(?:C\\.?\\s+|D\\.?\\s+|[A-Z]\\.\\s+THE\\s+PROJECT))"

/-- Keyword gate of the `REASONS FOR UNIDO ASSISTANCE` group. -/
def reasonsKwPat : RE :=
  pat "lack\\s+of|problem|challenge|constraint|need\\s+to|urgent|limited|inadequate"

/-- The `REASONS FOR UNIDO ASSISTANCE` keyword-gated group. -/
def reasonsGroup (content : List Char) : Option (List Char) :=
  (searchCap1 true reasonsPat content).bind fun text =>
    if reTest true reasonsKwPat text then
      (cleanTextL text).bind fun c => if 200 < c.length then some c else none
    else none

/-- First non-`none` entry of a list of options. -/
def firstSome {α : Type} : List (Option α) → Option α
  | [] => none
  | o :: t =>
    match o with
    | some r => some r
    | none => firstSome t

/-- The rule groups of `extract_challenges` in source priority order; each
stage of the source either returns on success or falls through with an
empty accumulator. -/
def challengeGroupFns : List (List Char → Option (List Char)) :=
  [gefBarriersGroup, problemStandaloneGroup, thereforeGroup, b1Group,
   a1Group, pifGroup, a2Group, situationAnalysisGroup, backgroundCrisisGroup,
   situationGroup, numberedChallengesGroup, constraintsGroup,
   topicChallengesGroup, standaloneGroup, problemGroup, contextGroup,
   bulletGroup, contextSectionGroup, devChallengeGroup, reasonsGroup]

/-- `extract_challenges` (source lines 612-1129): the result of the first
rule group that accepts at least one match. -/
def extract_challenges (content : List Char) : Option (List Char) :=
  firstSome (challengeGroupFns.map (fun g => g content))

/-!  Embedding of `extract_all_challenges_sections` (source lines
1132-1161). -/

/-- The A.2 numbered-subsection pattern of the fallback extractor. -/
def subsectionPat : RE :=
  pat "(A\\.?\\s*2\\.?\\s*\\d+[^\\n]*\\n[\\s\\S]*?)(?=\\nA\\.?\\s*2\\.?\\s*\\d+|\\nA\\.?\\s*3|\\nB\\.)"

/-- Keyword gate of the fallback subsection scan. -/
def fallbackKwPat : RE :=
  pat "challeng|problem|constraint|difficult|impediment|obstacle|issue|barrier"

/-- Keyword test of the fallback paragraph scan. -/
def keyParaPat : RE :=
  pat "(?:key|main|major)\\s+(?:challenges?|problems?|constraints?)"

/-- The accepted candidates of the fallback extractor: keyword-bearing A.2
subsections, else keyword-bearing paragraphs. -/
def fallbackAccepted (content : List Char) : List (List Char) :=
  let subs := (reFindIter true subsectionPat content).filterMap fun m =>
    (groupOf content m.2.2 1).bind fun text =>
      if reTest true fallbackKwPat text then
        (cleanTextL text).bind fun c => if 100 < c.length then some c else none
      else none
  if subs.isEmpty then
    (splitOn2Nl content).filterMap fun para =>
      if reTest true keyParaPat para then
        (cleanTextL para).bind fun c => if 100 < c.length then some c else none
      else none
  else subs

/-- `extract_all_challenges_sections`: the accepted candidates joined with a
blank line (`'\n\n'.join`). -/
def extract_all_challenges_sections (content : List Char) : Option (List Char) :=
  let challenges := fallbackAccepted content
  if challenges.isEmpty then none
  else some (List.intercalate "\n\n".data challenges)

/-- The challenges pipeline of `process_document` (source lines 1196-1198):
the fallback extractor runs only when `extract_challenges` produced nothing
(no extractor ever returns an empty string, so falsiness is `None`-ness). -/
def challengesOf (content : List Char) : Option (List Char) :=
  match extract_challenges content with
  | some r => some r
  | none => extract_all_challenges_sections content

/-!  Embedding of `extract_brief_description` (source lines 103-609). -/

/-- The common loop with both a lower and an upper bound on the cleaned
length. -/
def tryPatsB (lo : Nat) (hi : Option Nat) (pats : List RE) (content : List Char) :
    Option (List Char) :=
  pats.findSome? fun p =>
    (searchCap1 true p content).bind fun text =>
      (cleanTextL text).bind fun c =>
        let hiOk : Bool := match hi with | some h => c.length < h | none => true
        if lo < c.length ∧ hiOk then some c else none

/-- The `end_markers` list of PATTERN GROUP 1, verbatim. -/
def endMarkers : List String :=
  ["\\n\\s*Approved[:\\s]",
   "\\n\\s*TABLE\\s+OF\\s+CONTENTS",
   "\\n\\s*INDEX\\s*\\n",
   "\\n\\s*EXECUTIVE\\s+SUMMARY",
   "\\n\\s*On\\s+behalf\\s+of",
   "\\n\\s*Signature[:\\s]",
   "\\n\\s*PART\\s+[IV1-9]",
   "\\n\\s*A\\.\\s+CONTEXT",
   "\\n\\s*A\\.1\\s+",
   "\\n\\s*B\\.\\s+",
   "\\n\\s*1\\.\\s+[A-Z]",
   "\\n\\s*ABBREVIATIONS",
   "\\n\\s*LIST\\s+OF\\s+ABBREVIATIONS",
   "\\n\\s*ACRONYMS",
   "\\n\\s*Contents\\s*\\n"]

/-- `end_pattern = '|'.join(end_markers)`. -/
def endPattern : String := String.intercalate "|" endMarkers

/-- The two `brief_patterns` of PATTERN GROUP 1 (the first is built from
`end_pattern` as in the source). -/
def briefPats : List RE :=
  [pat ("Brief\\s+description\\s*[:\\-]?\\s*\\n([\\s\\S]*?)(?=" ++ endPattern ++ ")"),
   pat "Brief\\s+description\\s*[:\\-]?\\s*\\n([\\s\\S]+?)(?=\\n\\n\\s*[A-Z][a-z]+[:\\s]|\\n\\n\\s*\\d+\\.\\s)"]

/-- PATTERN GROUP 1 proper: first matching brief pattern whose cleaned
capture exceeds 50 characters. -/
def briefPrimary (content : List Char) : Option (List Char) :=
  tryPats 50 briefPats content

/-- The anchor of the natural-break-point fallback of PATTERN GROUP 1. -/
def briefFallbackPat : RE :=
  pat "Brief\\s+description\\s*[:\\-]?\\s*\\n([\\s\\S]+)"

/-- The `break_patterns` of the natural-break-point fallback, verbatim. -/
def breakPats : List RE :=
  [pat "\\n\\s*Approved",
   pat "\\n\\s*TABLE\\s+OF",
   pat "\\n\\s*INDEX\\s*\\n",
   pat "\\n\\s*A\\.\\s",
   pat "\\n\\s*PART\\s+I",
   pat "\\n\\s*_{5,}",
   pat "\\n\\s*-{5,}"]

/-- `earliest_break`: the smallest break-pattern start inside the captured
text, defaulting to its length. -/
def earliestBreak (text : List Char) : Nat :=
  breakPats.foldl
    (fun acc bp =>
      match reSearch true bp text with
      | some (s, _, _) => if s < acc then s else acc
      | none => acc)
    text.length

/-- The natural-break-point fallback (source lines 148-169).  When the
anchor matches and the break point lies beyond 50 raw characters it
returns `clean_text` of the raw prefix - possibly `None`, ending the whole
cascade; `none` here means the step did not fire and the cascade
continues. -/
def briefFallbackStep (content : List Char) : Option (Option (List Char)) :=
  (searchCap1 true briefFallbackPat content).bind fun text =>
    let eb := earliestBreak text
    if 50 < eb then some (cleanTextL (text.take eb)) else none

/-- PATTERN GROUP 2 patterns (`gef_patterns`). -/
def gefBriefPats : List RE :=
  [pat "Project\\s+Objective\\s*[:\\-]\\s*([\\s\\S]*?)(?=\\n\\s*(?:Trust|Grant|Project\\s+Component|Expected|Type|\\(select\\)|[A-Z]\\.\\s+))",
   pat "Project\\s+Objective\\s*[:\\-]\\s*([^\\n]+(?:\\n(?![A-Z\\d]\\.)[^\\n]+)*)"]

/-- PATTERN GROUP 3 patterns (`exec_patterns`). -/
def execPats : List RE :=
  [pat "EXECUTIVE\\s+SUMMARY\\s*\\n([\\s\\S]*?)(?=\\n\\s*(?:PART\\s+|[A-Z]\\.\\s+|\\d+\\.\\s+[A-Z]|TABLE\\s+OF\\s+CONTENTS))",
   pat "Executive\\s+Summary\\s*[:\\n]([\\s\\S]*?)(?=\\n\\s*(?:\\d+\\.\\s+|[A-Z]\\.\\s+|Introduction|Background))"]

/-- PATTERN GROUP 4 patterns (`summary_patterns`). -/
def summaryPats : List RE :=
  [pat "Project\\s+Summary\\s*[:\\-]?\\s*\\n([\\s\\S]*?)(?=\\n\\s*(?:[A-Z]\\.\\s+|\\d+\\.\\s+[A-Z]|PART\\s+))",
   pat "Project\\s+Description\\s*[:\\-]?\\s*\\n([\\s\\S]*?)(?=\\n\\s*(?:[A-Z]\\.\\s+|\\d+\\.\\s+[A-Z]|PART\\s+))"]

/-- PATTERN GROUP 5 patterns (`undp_patterns`, searched in the first 5000
characters). -/
def undpPats : List RE :=
  [pat "((?:This|The)\\s+project\\s+(?:aims|seeks|is\\s+designed|is\\s+expected|will)\\s+to[^.]+\\.(?:[^.]+\\.){0,5})",
   pat "Implementing\\s+(?:Agency|Partner)\\s*:\\s*[^\\n]+\\n\\s*([A-Z][^.]+(?:project|programme|initiative)[^.]*\\.(?:[^.]+\\.){0,5})"]

/-- PATTERN GROUP 6 patterns (`ppg_patterns`). -/
def ppgPats : List RE :=
  [pat "Describe\\s+the\\s+PPG\\s+activities\\s+and\\s+justifications\\s*[:\\-]?\\s*([\\s\\S]*?)(?=\\n\\s*(?:List\\s+of\\s+Proposed|The\\s+following\\s+provides|Component\\s+\\d|[A-Z]\\.\\s+[A-Z]))",
   pat "PROJECT\\s+TITLE\\s*[:\\-]\\s*([^\\n]+)"]

/-- PATTERN GROUP 7 pattern (`situation_intro`). -/
def situationIntroPat : RE :=
  pat "(?:I\\.|1\\.)\\s*SITUATION\\s+ANALYSIS\\s*\\n([\\s\\S]*?)(?=\\n\\s*(?:II\\.|2\\.|Economy|Energy|Agriculture|[A-Z][a-z]+\\s*:))"

/-- PATTERN GROUP 8 patterns (`abstract_patterns`). -/
def abstractPats : List RE :=
  [pat "\\n\\s*Abstract\\s*\\n([\\s\\S]*?)(?=\\n\\s*(?:Content|Table\\s+of\\s+Contents|Introduction|\\d+\\s+[A-Z]|[A-Z]+\\s+[A-Z]+:))",
   pat "\\n\\s*ABSTRACT\\s*\\n([\\s\\S]*?)(?=\\n\\s*(?:CONTENT|TABLE\\s+OF|INTRODUCTION|\\d+\\s+[A-Z]))"]

/-- PATTERN GROUP 9 patterns (`program_patterns`). -/
def programPats : List RE :=
  [pat "Program\\s+Vision\\s+and\\s+Mission\\s*\\n([\\s\\S]*?)(?=\\n\\s*(?:Program\\s+Objectives|The\\s+\\dADI|[A-Z][a-z]+\\s+Objectives|\\d+\\s*\\n))",
   pat "Program\\s+Objectives(?:\\s+and\\s+Expected\\s+Impact)?\\s*\\n([\\s\\S]*?)(?=\\n\\s*(?:For\\s+the\\s+|Support\\s+to|I\\.\\s+Problem|Table\\s+\\d))"]

/-- PATTERN GROUP 10 patterns (`cpf_patterns`). -/
def cpfPats : List RE :=
  [pat "COUNTRY\\s+PROGRAMME\\s+(?:FRAMEWORK|FOR)\\s+[^\\n]+\\n(?:for\\s+[^\\n]+\\n)?(?:INCLUSIVE[^\\n]+\\n)?(?:\\d{4}[^\\n]*\\n)?([\\s\\S]*?)(?=\\n\\s*_{5,}|\\n\\s*[A-Z][a-z]+\\s+[A-Z][a-z]+\\s*\\n\\s*Director)",
   pat "(The\\s+[A-Z][a-z]+\\s+Country\\s+Programme\\s+Framework[^.]+\\.(?:[^.]+\\.){1,10})"]

/-- PATTERN GROUP 11 patterns (`vc_patterns`). -/
def vcPats : List RE :=
  [pat "(?:Value\\s+Chain|Support\\s+Program)[^\\n]*\\n(?:Prospective[^\\n]*\\n)?([\\s\\S]*?)(?=\\n\\s*(?:Contents|Table\\s+of\\s+Contents|Acronyms|\\d+\\s*\\n))",
   pat "Country\\s+Context\\s*\\n([\\s\\S]*?)(?=\\n\\s*(?:The\\s+\\dADI|Contents|Acronyms|Tables\\s+and))"]

/-- PATTERN GROUP 12 patterns (`one_programme_patterns`). -/
def oneProgrammePats : List RE :=
  [pat "\\d+\\s+Objective\\s+of\\s+the\\s+(?:One\\s+)?Programme\\s*\\n([\\s\\S]*?)(?=\\n\\s*\\d+\\s+(?:One\\s+)?Programme\\s+Structure|\\n\\s*\\d+\\.\\d+|\\n\\s*2\\s+[A-Z])",
   pat "Objective\\s+of\\s+the\\s+(?:One\\s+)?Programme\\s*\\n([\\s\\S]*?)(?=\\n\\s*(?:Programme\\s+Structure|\\d+\\.\\d+|\\d+\\s+[A-Z]))",
   pat "Programme\\s+Objective[s]?\\s*\\n([\\s\\S]*?)(?=\\n\\s*(?:\\d+\\s+[A-Z]|\\d+\\.\\d+|Programme\\s+Structure))"]

/-- PATTERN GROUP 13 patterns (`meeting_report_patterns`). -/
def meetingReportPats : List RE :=
  [pat "\\n\\s*Introduction\\s*\\n((?:\\d+\\.\\s+[\\s\\S]*?)(?=\\n\\s*AGENDA\\s+ITEM|\\n\\s*[A-Z]+\\s+ITEM|\\n\\s*\\d+\\.\\s+[A-Z][a-z]+\\s+of))",
   pat "REPORT\\s+OF\\s+THE\\s+[^\\n]+\\n\\s*Introduction\\s*\\n([\\s\\S]*?)(?=\\n\\s*AGENDA\\s+ITEM)",
   pat "\\n\\s*Introduction\\s*\\n([\\s\\S]*?)(?=\\n\\s*(?:AGENDA|Contents|Table\\s+of|I\\.\\s+|1\\.\\s+[A-Z][a-z]+\\s+[a-z]))"]

/-- PATTERN GROUP 14 patterns (`short_desc_patterns`). -/
def shortDescPats : List RE :=
  [pat "Total\\s+budget[^\\n]*\\n(The\\s+overall\\s+objective[\\s\\S]*?)(?=\\n\\s*(?:\\d+\\s*\\n\\s*Project|\\n\\s*Contents|[A-Z]\\.\\s+[A-Z]))",
   pat "Short\\s+description\\s*\\n?([\\s\\S]*?)(?=\\n\\s*(?:Contents|Table\\s+of|[A-Z]\\.\\s+[A-Z]|\\d+\\s*\\n\\s*Project))",
   pat "Short\\s+description\\s*[:\\n]\\s*([\\s\\S]*?)(?=\\n\\s*(?:[A-Z]\\.\\s+[A-Z]|Contents|Background))"]

/-- The inner substitution of PATTERN GROUP 14, removing table artifacts. -/
def shortDescInnerPat : RE := pat "\\n\\s*Short\\s+description\\s*\\n"

/-- PATTERN GROUP 14 with its inner substitution. -/
def shortDescGroup (content : List Char) : Option (List Char) :=
  shortDescPats.findSome? fun p =>
    (searchCap1 true p content).bind fun text =>
      let text := reSub true shortDescInnerPat "\n".data text
      (cleanTextL text).bind fun c =>
        if 50 < c.length ∧ c.length < 5000 then some c else none

/-- PATTERN GROUP 15 patterns (`project_purpose_patterns`). -/
def projectPurposePats : List RE :=
  [pat "A\\.?\\s*1\\.?\\s*Project\\s+Purpose\\s*\\n([\\s\\S]*?)(?=\\n\\s*(?:A\\.?\\s*2|Figure\\s+\\d|The\\s+project\\s+will|The\\s+main\\s+rationale))",
   pat "\\n\\s*Project\\s+Purpose\\s*\\n([\\s\\S]*?)(?=\\n\\s*(?:[A-Z]\\.?\\s*\\d|Figure|Table|The\\s+project))"]

/-- PATTERN GROUP 16 patterns (`project_desc_patterns`). -/
def projectDescPats : List RE :=
  [pat "PROJECT\\s+DESCRIPTION\\s*\\n\\s*(?:Background\\s*\\n)?([\\s\\S]*?)(?=\\n\\s*(?:SECRETARIAT|PROJECT\\s+EVALUATION|[A-Z]+\\s+COSTS|\\d+\\.\\s+On\\s+behalf))",
   pat "PROJECT\\s+DESCRIPTION\\s*\\n([\\s\\S]*?)(?=\\n\\s*(?:[A-Z]{2,}\\s+[A-Z]|Table\\s+\\d|\\d+\\s*\\n\\s*[A-Z]))"]

/-- PATTERN GROUP 17 patterns (`work_plan_patterns`). -/
def workPlanPats : List RE :=
  [pat "A\\.\\s*Work\\s+Programme\\s+and\\s+Budget[^\\n]*\\n([\\s\\S]*?)(?=\\n\\s*(?:This\\s+work\\s+plan|B\\.\\s+Planned|The\\s+GS\\s+inter))",
   pat "(?:2020\\s*[-–]\\s*2023|Implementation[^\\n]*)\\s*\\n\\s*A\\.\\s*Work\\s+Programme[^\\n]*\\n(Advancing[\\s\\S]*?)(?=\\n\\s*(?:This\\s+work\\s+programme|The\\s+GS))",
   pat "Work\\s+Programme\\s+and\\s+Budget[^\\n]*\\n(?:\\d{4}[^\\n]*\\n)?(?:for[^\\n]*\\n)?([\\s\\S]*?)(?=\\n\\s*(?:This\\s+work\\s+programme|B\\.\\s+|Table\\s+of|Contents))"]

/-- PATTERN GROUP 18 patterns (`intro_section_patterns`). -/
def introSectionPats : List RE :=
  [pat "A\\.\\s*INTRODUCTION\\s*\\n([\\s\\S]*?)(?=\\n\\s*B\\.\\s+[A-Z])",
   pat "[A-Z]\\.\\s*INTRODUCTION\\s*\\n([\\s\\S]*?)(?=\\n\\s*[A-Z]\\.\\s+[A-Z])"]

/-- PATTERN GROUP 19 patterns (`objectives_patterns`). -/
def objectivesPats : List RE :=
  [pat "Objectives?\\s+of\\s+the\\s+action\\s*\\n([\\s\\S]*?)(?=\\n\\s*Target\\s+group)"]

/-- PATTERN GROUP 20 patterns (`summary_section_patterns`). -/
def summarySectionPats : List RE :=
  [pat "\\n\\s*SUMMARY\\s*\\n([\\s\\S]*?)(?=\\n\\s*(?:The\\s+proposed|More\\s+precisely|Prior\\s+to|\\d+\\.\\s+[A-Z]|[A-Z]\\.\\s+[A-Z]|Table\\s+of))",
   pat "\\n\\s*Summary\\s*[:\\n]\\s*([\\s\\S]*?)(?=\\n\\s*(?:\\d+\\.\\s+|[A-Z]\\.\\s+|Table\\s+of|Contents))"]

/-- The second PATTERN GROUP 20 patterns (`application_patterns`). -/
def applicationPats : List RE :=
  [pat "The\\s+application\\s+relates\\s+to\\s*[:\\n]\\s*([\\s\\S]*?)(?=\\n\\s*(?:Location|Total\\s+calculated|Timeframe|Previous))"]

/-- PATTERN GROUP 21 pattern (`brief_field_patterns`, searched in the first
6000 characters). -/
def briefFieldPats : List RE :=
  [pat "Brief\\s+description\\s*:\\s*([\\s\\S]*?)(?=\\n\\s*(?:\\d+\\s*\\n\\s*\\n|Approved\\s*:|Page\\s+\\d))"]

/-- PATTERN GROUP 21 with the double-letter repair applied to the raw
capture before cleaning. -/
def briefFieldGroup (content : List Char) : Option (List Char) :=
  briefFieldPats.findSome? fun p =>
    (searchCap1 true p (content.take 6000)).bind fun text =>
      let text := clean_double_letter_encoding text
      (cleanTextL text).bind fun c =>
        if 100 < c.length ∧ c.length < 10000 then some c else none

/-- PATTERN GROUP 22 patterns (`preamble_patterns`, searched in the first
5000 characters). -/
def preamblePats : List RE :=
  [pat "(?:In-kind|Counterpart\\s+inputs\\s+In-kind)[^\\n]*\\n(Since[\\s\\S]*?)(?=\\n\\s*Approved\\s*:)",
   pat "\\n(Since\\s+the\\s+signing[\\s\\S]*?)(?=\\n\\s*Approved\\s*:)",
   pat "(?:Executing\\s+agency|UNIDO\\s+inputs)[^\\n]*\\n([\\s\\S]*?)(?=\\n\\s*(?:Table\\s+of\\s+Contents|Contents\\s*\\n|Approved\\s*:))"]

/-- The signature-block test of PATTERN GROUP 22 (case sensitive, applied to
the first 100 characters of the raw capture). -/
def signaturePat : RE := pat "^[\\s\\n]*Signature|^[\\s\\n]*On\\s+behalf"

/-- PATTERN GROUP 22: preamble before the table of contents, skipping
signature blocks and short captures. -/
def preambleGroup (content : List Char) : Option (List Char) :=
  preamblePats.findSome? fun p =>
    (searchCap1 true p (content.take 5000)).bind fun text =>
      if 200 < text.length ∧ ¬ reTest false signaturePat (text.take 100) then
        (cleanTextL text).bind fun c =>
          if 100 < c.length ∧ c.length < 5000 then some c else none
      else none

/-- PATTERN GROUP 23 patterns (`service_summary_patterns`). -/
def serviceSummaryPats : List RE :=
  [pat "Origin\\s+of\\s+proposal\\s*[:\\n]\\s*([\\s\\S]*?)(?=\\n\\s*(?:Problem|Research\\s+issue|Objective|Expected))",
   pat "Service\\s+Summary\\s+Sheet\\s*\\n(?:[^\\n]*\\n){1,5}([\\s\\S]*?)(?=\\n\\s*(?:Problem|SSS-|Page\\s+\\d))"]

/-- PATTERN GROUPS 2-23 of `extract_brief_description`, in source order;
all of these return only on success. -/
def briefRestFns : List (List Char → Option (List Char)) :=
  [fun content => tryPats 20 gefBriefPats content,
   fun content => tryPats 100 execPats content,
   fun content => tryPats 50 summaryPats content,
   fun content => tryPatsB 50 (some 3000) undpPats (content.take 5000),
   fun content => tryPats 50 ppgPats content,
   fun content => tryPats 100 [situationIntroPat] content,
   fun content => tryPats 100 abstractPats content,
   fun content => tryPats 100 programPats content,
   fun content => tryPatsB 100 (some 5000) cpfPats content,
   fun content => tryPatsB 100 (some 5000) vcPats content,
   fun content => tryPatsB 50 (some 5000) oneProgrammePats content,
   fun content => tryPatsB 100 (some 10000) meetingReportPats content,
   shortDescGroup,
   fun content => tryPatsB 100 (some 10000) projectPurposePats content,
   fun content => tryPatsB 100 (some 15000) projectDescPats content,
   fun content => tryPatsB 100 (some 5000) workPlanPats content,
   fun content => tryPatsB 100 (some 10000) introSectionPats content,
   fun content => tryPatsB 50 (some 3000) objectivesPats content,
   fun content => tryPatsB 100 (some 10000) summarySectionPats content,
   fun content => tryPatsB 50 (some 3000) applicationPats content,
   briefFieldGroup,
   preambleGroup,
   fun content => tryPatsB 50 (some 5000) serviceSummaryPats content]

/-- `extract_brief_description` (source lines 103-609): the standard
`Brief description` group, then its natural-break-point fallback (whose
firing ends the cascade even when it cleans to `None`), then pattern
groups 2-23. -/
def extract_brief_description (content : List Char) : Option (List Char) :=
  match briefPrimary content with
  | some r => some r
  | none =>
    match briefFallbackStep content with
    | some r => r
    | none => firstSome (briefRestFns.map (fun g => g content))

/-!  Embedding of `process_document` (source lines 1164-1204).  File
input is modelled by an `Except`: a failed open/read carries the exception
message, a successful read carries the raw bytes, which are decoded by the
`errors='ignore'` UTF-8 decoder below (a total function: undecodable byte
sequences are dropped, never reported). -/

/-- UTF-8 decoding with `errors='ignore'`: invalid bytes and invalid
continuations are skipped.  Total by construction. -/
def decodeIgnoreGo : Nat → List Nat → List Char
  | 0, _ => []
  | _, [] => []
  | f + 1, b :: t =>
    if b < 0x80 then Char.ofNat b :: decodeIgnoreGo f t
    else if 0xC2 ≤ b ∧ b ≤ 0xDF then
      match t with
      | b2 :: t2 =>
        if 0x80 ≤ b2 ∧ b2 ≤ 0xBF then
          Char.ofNat ((b - 0xC0) * 64 + (b2 - 0x80)) :: decodeIgnoreGo f t2
        else decodeIgnoreGo f t
      | [] => []
    else if 0xE0 ≤ b ∧ b ≤ 0xEF then
      match t with
      | b2 :: b3 :: t3 =>
        let lo2 := if b = 0xE0 then 0xA0 else 0x80
        let hi2 := if b = 0xED then 0x9F else 0xBF
        if lo2 ≤ b2 ∧ b2 ≤ hi2 ∧ 0x80 ≤ b3 ∧ b3 ≤ 0xBF then
          Char.ofNat ((b - 0xE0) * 4096 + (b2 - 0x80) * 64 + (b3 - 0x80)) ::
            decodeIgnoreGo f t3
        else decodeIgnoreGo f t
      | _ => decodeIgnoreGo f t
    else if 0xF0 ≤ b ∧ b ≤ 0xF4 then
      match t with
      | b2 :: b3 :: b4 :: t4 =>
        let lo2 := if b = 0xF0 then 0x90 else 0x80
        let hi2 := if b = 0xF4 then 0x8F else 0xBF
        if lo2 ≤ b2 ∧ b2 ≤ hi2 ∧ 0x80 ≤ b3 ∧ b3 ≤ 0xBF ∧ 0x80 ≤ b4 ∧ b4 ≤ 0xBF then
          Char.ofNat ((b - 0xF0) * 262144 + (b2 - 0x80) * 4096 +
              (b3 - 0x80) * 64 + (b4 - 0x80)) :: decodeIgnoreGo f t4
        else decodeIgnoreGo f t
      | _ => decodeIgnoreGo f t
    else decodeIgnoreGo f t

/-- UTF-8 decoding with `errors='ignore'`. -/
def decodeIgnore (bytes : List Nat) : List Char := decodeIgnoreGo (bytes.length + 1) bytes

/-- The record returned by `process_document`; `error = none` models the
absence of the `'error'` key. -/
structure ProjectRecord where
  project_id : List Char
  brief_description : Option (List Char)
  challenges_problem_statements : Option (List Char)
  error : Option (List Char)
  deriving DecidableEq

/-- `process_document` (source lines 1164-1204): a failed read yields a
record with the error message, null text fields and the identifier resolved
from the filename; a successful read normalises line endings and runs the
extractors, and the record carries no error key. -/
def process_document (filename : List Char) (io : Except (List Char) (List Nat)) :
    ProjectRecord :=
  match io with
  | .error e =>
    { project_id := extract_project_id filename
      brief_description := none
      challenges_problem_statements := none
      error := some ("Failed to read file: ".data ++ e) }
  | .ok bytes =>
    let content := normEOL (decodeIgnore bytes)
    { project_id := extract_project_id filename
      brief_description := extract_brief_description content
      challenges_problem_statements := challengesOf content
      error := none }

/-!  Sanity check: every transcribed pattern parsed successfully (the
`pat` fallback `RE.cls false []`, which can arise from no real pattern of
the source, appears nowhere). -/

/-- Every parsed pattern constant in this file. -/
def allPats : List RE :=
  gefProblemPats ++ [gefEndPat, barriersHeaderPat, barriersEndPat, barrierNumPat] ++
  problemStandalonePats ++ [thereforePat] ++ b1ProblemsPats ++ a1ProblemsPats ++
  pifProblemPats ++ [pifEndPat] ++ a2Pats ++ [a2EndPat, cohPat,
    situationAnalysisPat, situationKwPat, backgroundCrisisPat, backgroundKwPat] ++
  situationPats ++ numberedChallengesPats ++ constraintsPats ++
  topicChallengesPats ++ [standalonePat, standaloneEndPat] ++ problemPats ++
  [problemEndPat] ++ contextPats ++ [bulletContentPat, numberedContentPat,
    contextEndPat] ++ bulletPats ++ [contextSectionPat, contextSectionKwPat] ++
  devChallengePats ++ [reasonsPat, reasonsKwPat, subsectionPat, fallbackKwPat,
    keyParaPat] ++ briefPats ++ [briefFallbackPat] ++ breakPats ++
  gefBriefPats ++ execPats ++ summaryPats ++ undpPats ++ ppgPats ++
  [situationIntroPat] ++ abstractPats ++ programPats ++ cpfPats ++ vcPats ++
  oneProgrammePats ++ meetingReportPats ++ shortDescPats ++ [shortDescInnerPat] ++
  projectPurposePats ++ projectDescPats ++ workPlanPats ++ introSectionPats ++
  objectivesPats ++ summarySectionPats ++ applicationPats ++ briefFieldPats ++
  preamblePats ++ [signaturePat] ++ serviceSummaryPats

/-- All transcribed patterns parse (none fell back to the never-matching
placeholder). -/
theorem patterns_all_parse : allPats.all (fun r => r ≠ RE.cls false []) = true := by
  decide

example : clean_text "  1\nA" = some "1\nA" := by decide
example : clean_text "1\nA" = some "A" := by decide
example : clean_text "A\nPage 1\nPage 2\nB" = some "A\nPage 2\nB" := by decide
example : clean_text "a\n\n\n\n\nb" = some "a\n\nb" := by decide
example : clean_double_letter_encoding "TThhiiss iiss aa tteesstt".data = "This is a test".data := by decide
example : clean_double_letter_encoding "committee meeting".data = "committee meeting".data := by decide
example : clean_double_letter_encoding "TTeesstt".data = "TTeesstt".data := by decide
example : extract_project_id "140337_report_final.txt".data = "140337".data := by decide
example : extract_project_id "annex_tables.txt".data = "annex_tables".data := by decide
example : extract_project_id "a1234b12345c.txt".data = "12345".data := by decide
example : extract_project_id "foo.tar.gz".data = "foo.tar".data := by decide

/-!  Concrete documents used by the claim theorems below. -/

/-- A document whose only challenge evidence is a keyword-bearing paragraph
(no recognisable heading). -/
def exPara : String := "It is noted that the main challenges facing the sector include lack of financing, limited technical capacity and weak market linkages for rural producers."

/-- The scenario-B document built around `exPara`. -/
def exKeywordDoc : String := "Overview of the work done so far.\n\n" ++ exPara ++ "\n"

/-- The phrase required by scenario B. -/
def exPhrase : String := "the main challenges facing the sector include lack of financing, limited technical capacity"

/-- First keyword-bearing paragraph of the two-paragraph fallback document. -/
def exSepP1 : String := "Analysts agree that the key problems for smallholder growers remain poorly understood across the whole region today."

/-- Second keyword-bearing paragraph of the two-paragraph fallback document. -/
def exSepP2 : String := "Reviews also show that the main challenges facing growers include lack of storage, weak cooling chains and costly transport links."

/-- A document on which the fallback extractor accepts two paragraphs. -/
def exSepDoc : String := exSepP1 ++ "\n\n" ++ exSepP2

/-- The body shared by the two identical baseline-problem sections. -/
def exDupBody : String := "The farming economy of the region depends on seasonal rains, and output swings sharply between years. Storage losses stay high, rural roads wear out quickly, and growers lack steady access to affordable finance for new equipment."

/-- A document whose `B.1 baseline problem` group accepts the same span
twice. -/
def exDupDoc : String :=
  "B.1 baseline problem\n" ++ exDupBody ++ "\nB.2 Review\nB.1 baseline problem\n" ++
  exDupBody ++ "\nB.2 End"

/-- A document whose "Barriers" section fires the highest-priority group. -/
def exBarriersDoc : String := "Intro line.\n\nBarriers\nFunding gaps remain wide, technical help stays scarce, and market data seldom reaches growers, while storage sheds and cooling rooms stay unavailable for most cooperatives."

/-- The accepted span of `exBarriersDoc`. -/
def exBarriersOut : String := "Barriers\nFunding gaps remain wide, technical help stays scarce, and market data seldom reaches growers, while storage sheds and cooling rooms stay unavailable for most cooperatives."

/-- A document on which the brief-description natural-break fallback fires
on a 62-character raw capture that cleans to 2 characters. -/
def exShortBrief : String := "Brief description:\nab" ++ String.mk (List.replicate 60 ' ')

/-- A document whose primary `Brief description` pattern fires. -/
def exPrimaryBrief : String := "Brief description:\nThe project builds capacity for quality testing in food laboratories across the region.\nApproved: yes"

/-- The captured prose of `exPrimaryBrief`. -/
def exPrimaryProse : String := "The project builds capacity for quality testing in food laboratories across the region."

/-- Substring test on character lists. -/
def startsWithL : List Char → List Char → Bool
  | [], _ => true
  | _ :: _, [] => false
  | a :: t, b :: u => a == b && startsWithL t u

/-- Does `hay` contain `needle` as a contiguous subsequence? -/
def containsSeq (needle : List Char) : List Char → Bool
  | [] => needle.isEmpty
  | c :: t => startsWithL needle (c :: t) || containsSeq needle t

/-!  Claim C4: error semantics of `process_document`. -/

/-- Claim C4 (confirmed): a failed read yields a record whose `error` holds
the failure message, whose two text fields are null and whose `project_id`
is still resolved from the filename; a successful read yields a record with
no error key. -/
theorem process_document_unreadable :
    (∀ fn e : List Char,
        process_document fn (Except.error e) =
          { project_id := extract_project_id fn,
            brief_description := none,
            challenges_problem_statements := none,
            error := some ("Failed to read file: ".data ++ e) }) ∧
    (∀ (fn : List Char) (bytes : List Nat),
        (process_document fn (Except.ok bytes)).error = none) :=
  ⟨fun _ _ => rfl, fun _ _ => rfl⟩

/-!  Claim C10: decode failures never surface as errors. -/

/-- Claim C10 (confirmed): the decoder `decodeIgnore` is a total function,
so for every readable byte string the record carries no error key and its
text fields are extracted from the lossily decoded text. -/
theorem process_document_decode_total : ∀ (fn : List Char) (bytes : List Nat),
    (process_document fn (Except.ok bytes)).error = none ∧
    (process_document fn (Except.ok bytes)).brief_description =
      extract_brief_description (normEOL (decodeIgnore bytes)) ∧
    (process_document fn (Except.ok bytes)).challenges_problem_statements =
      challengesOf (normEOL (decodeIgnore bytes)) :=
  fun _ _ => ⟨rfl, rfl, rfl⟩

/-!  Claim C2: the double-letter repair gate. -/

/-- Claim C2 counterexample: `"TTeesstt"` has every adjacent letter pair
doubled (ratio far above 20%), yet the repair is skipped because the text
has at most 20 letters; the skipped repair would have produced `"Test"`. -/
theorem double_letter_gate_cex :
    countLetters "TTeesstt".data <
      10 * (countDoubles "TTeesstt".data + countTriples "TTeesstt".data * 2) ∧
    clean_double_letter_encoding "TTeesstt".data = "TTeesstt".data ∧
    sub2All (sub3All "TTeesstt".data) = "Test".data := by
  refine ⟨by decide, by decide, by decide⟩

/-- Claim C2 amended: the repair collapses triples then doubles exactly when
the text has more than 20 letters and the doubled/tripled pair ratio
exceeds 20%; texts with at most 20 letters are always left unchanged.  The
two spec examples behave as stated (the second one because of its letter
count: its doubled-pair ratio is 50%). -/
theorem double_letter_gate_amended :
    clean_double_letter_encoding "TThhiiss iiss aa tteesstt".data =
      "This is a test".data ∧
    clean_double_letter_encoding "committee meeting".data =
      "committee meeting".data ∧
    (∀ l : List Char, countLetters l ≤ 20 →
        clean_double_letter_encoding l = l) ∧
    (∀ l : List Char, 20 < countLetters l →
        countLetters l < 10 * (countDoubles l + countTriples l * 2) →
        clean_double_letter_encoding l = sub2All (sub3All l)) := by
  refine ⟨by decide, by decide, ?_, ?_⟩
  · intro l h
    simp only [clean_double_letter_encoding]
    rw [if_neg]
    intro hc
    omega
  · intro l h1 h2
    simp only [clean_double_letter_encoding]
    rw [if_pos ⟨h1, h2⟩]

/-- Claim C2 witness: the amended theorem applied at the two concrete
inputs, discharging the letter-count and ratio hypotheses there. -/
theorem double_letter_gate_amended_witness :
    clean_double_letter_encoding "TTeesstt".data = "TTeesstt".data ∧
    clean_double_letter_encoding "TThhiiss iiss aa tteesstt".data =
      sub2All (sub3All "TThhiiss iiss aa tteesstt".data) :=
  ⟨double_letter_gate_amended.2.2.1 "TTeesstt".data (by decide),
   double_letter_gate_amended.2.2.2 "TThhiiss iiss aa tteesstt".data
     (by decide) (by decide)⟩

/-!  Claim C5: the concatenation separator. -/

/-- Singleton concatenation is the element itself. -/
theorem intercalate_singleton (sep x : List Char) :
    List.intercalate sep [x] = x := by
  simp [List.intercalate]

/-- Claim C5 amended: every rule group inside `extract_challenges`
concatenates its accepted sub-matches with `"\n\n---\n\n"` (also in the
single-match branch, where joining is the identity), but the lowest-priority
fallback `extract_all_challenges_sections` joins with a plain blank line
`"\n\n"`. -/
theorem challenges_join_separator :
    (∀ rs : List (List Char),
        joinResults rs =
          match rs with
          | [] => none
          | l => some (List.intercalate sepJoin l)) ∧
    (∀ content : List Char,
        extract_all_challenges_sections content =
          match fallbackAccepted content with
          | [] => none
          | l => some (List.intercalate "\n\n".data l)) := by
  constructor
  · intro rs
    match rs with
    | [] => rfl
    | [x] => simp [joinResults, intercalate_singleton]
    | x :: y :: t => rfl
  · intro content
    simp only [extract_all_challenges_sections]
    match fallbackAccepted content with
    | [] => rfl
    | x :: t => rfl

/-!  Claim C6: within-group deduplication. -/

/-- Invariant of the deduplication loop: the output is pairwise distinct on
the first-100-character key, and no output key lies in the seen set. -/
theorem dedup100Go_spec : ∀ (rs : List (Option (List Char))) (seen : List (List Char)),
    (dedup100Go seen rs).Pairwise (fun a b => a.take 100 ≠ b.take 100) ∧
    (∀ x ∈ dedup100Go seen rs, seen.contains (x.take 100) = false) := by
  intro rs
  induction rs with
  | nil => intro seen; exact ⟨List.Pairwise.nil, by intro x hx; simp [dedup100Go] at hx⟩
  | cons o t ih =>
    intro seen
    match o with
    | none => simpa [dedup100Go] using ih seen
    | some r =>
      simp only [dedup100Go]
      split
      · exact ih seen
      · rename_i hseen
        have hseen' : seen.contains (r.take 100) = false := by
          revert hseen
          cases seen.contains (r.take 100) <;> simp
        obtain ⟨hp, hm⟩ := ih (r.take 100 :: seen)
        refine ⟨List.Pairwise.cons ?_ hp, ?_⟩
        · intro y hy
          have := hm y hy
          simp only [List.contains_cons, Bool.or_eq_false_iff] at this
          intro hkey
          have := this.1
          rw [hkey] at this
          simp at this
        · intro x hx
          rcases List.mem_cons.mp hx with hx | hx
          · rwa [hx]
          · have := hm x hx
            simp only [List.contains_cons, Bool.or_eq_false_iff] at this
            exact this.2

/-- Claim C6 amended: the first-100-character deduplication produces
pairwise-distinct keys, and it is applied by the pooled GEF/Barriers group
and by pattern groups 4 and 5 - the other multi-match groups (for example
the `B.1 baseline problem` group) concatenate without deduplication. -/
theorem challenges_dedup_amended :
    (∀ rs : List (Option (List Char)),
        (dedup100 rs).Pairwise (fun a b => a.take 100 ≠ b.take 100)) ∧
    (∀ c, gefBarriersGroup c = joinResults (dedup100 (group0Results c))) ∧
    (∀ c, contextGroup c = joinResults (dedup100 ((contextResults c).map some))) ∧
    (∀ c, bulletGroup c = joinResults (dedup100 ((bulletResults c).map some))) ∧
    (∀ c, pifGroup c = joinResults (pifResults c)) :=
  ⟨fun rs => (dedup100Go_spec rs []).1,
   fun _ => rfl, fun _ => rfl, fun _ => rfl, fun _ => rfl⟩

/-- Claim C6 counterexample: on `exDupDoc` the `B.1 baseline problem` group
accepts the same span twice (its first 100 characters trivially coincide),
and the returned field contains both copies. -/
theorem challenges_dedup_cex :
    pifResults exDupDoc.data = [exDupBody.data, exDupBody.data] ∧
    100 < exDupBody.data.length ∧
    extract_challenges exDupDoc.data =
      some (exDupBody.data ++ sepJoin ++ exDupBody.data) := by
  refine ⟨by decide, by decide, by decide⟩

/-!  Claim C7: the minimum-length acceptance predicate of the
brief-description cascade. -/

/-- A property holding of every value produced by `findSome?` holds of its
result. -/
theorem findSome?_prop {α β : Type} (P : β → Prop) (f : α → Option β) :
    ∀ (l : List α), (∀ a v, f a = some v → P v) →
      ∀ v, l.findSome? f = some v → P v := by
  intro l hf
  induction l with
  | nil => intro v hv; simp [List.findSome?] at hv
  | cons a t ih =>
    intro v hv
    rw [List.findSome?_cons] at hv
    cases ha : f a with
    | some b => rw [ha] at hv; injection hv with hb; exact hb ▸ hf a b ha
    | none => rw [ha] at hv; exact ih v hv

/-- Values returned by `tryPats` exceed the threshold. -/
theorem tryPats_length {thr : Nat} {pats : List RE} {c v : List Char}
    (h : tryPats thr pats c = some v) : thr < v.length := by
  unfold tryPats at h
  refine findSome?_prop (fun v => thr < v.length) _ pats ?_ v h
  intro p w hp
  rcases Option.bind_eq_some.mp hp with ⟨text, -, hb⟩
  rcases Option.bind_eq_some.mp hb with ⟨cl, -, hif⟩
  split at hif
  · rename_i hlt
    injection hif with hw
    rw [← hw]
    exact hlt
  · simp at hif

/-- Claim C7 counterexample: on `exShortBrief` the natural-break-point
fallback of the standard `Brief description` group accepts a 62-character
raw capture but returns its cleaned form `"ab"`, of length 2. -/
theorem brief_threshold_cex :
    extract_brief_description exShortBrief.data = some "ab".data ∧
    ("ab".data).length ≤ 50 :=
  ⟨by decide, by decide⟩

/-- Claim C7 amended: the two primary `Brief description` patterns enforce
the 50-character minimum on the cleaned capture, but the natural-break-point
fallback checks 50 characters on the raw prefix before cleaning, so the
value it returns can be arbitrarily short (or `None`). -/
theorem brief_threshold_amended :
    (∀ (c v : List Char), briefPrimary c = some v → 50 < v.length) ∧
    (∀ (c : List Char) (r : Option (List Char)), briefFallbackStep c = some r →
        ∃ text : List Char, 50 < earliestBreak text ∧
          r = cleanTextL (text.take (earliestBreak text))) := by
  constructor
  · intro c v h
    exact tryPats_length h
  · intro c r h
    rcases Option.bind_eq_some.mp h with ⟨text, -, hif⟩
    dsimp only at hif
    split at hif
    · injection hif with hr
      exact ⟨text, by assumption, hr.symm⟩
    · simp at hif

/-- Claim C7 witness: the amended theorem applied at `exPrimaryBrief` and at
`exShortBrief`. -/
theorem brief_threshold_amended_witness :
    50 < exPrimaryProse.data.length ∧
    (∃ text : List Char, 50 < earliestBreak text ∧
        some "ab".data = cleanTextL (text.take (earliestBreak text))) :=
  ⟨brief_threshold_amended.1 exPrimaryBrief.data exPrimaryProse.data (by decide),
   brief_threshold_amended.2 exShortBrief.data (some "ab".data) (by decide)⟩

/-!  Claim C1: the cascade short-circuit of the challenges extraction. -/

/-- The challenges cascade as seen by `process_document`: the rule groups of
`extract_challenges` followed by the lowest-priority fallback extractor. -/
def challengesCascadeFns : List (List Char → Option (List Char)) :=
  challengeGroupFns ++ [extract_all_challenges_sections]

/-- Splitting `firstSome` at an append. -/
theorem firstSome_append {α : Type} : ∀ (l₁ l₂ : List (Option α)),
    firstSome (l₁ ++ l₂) =
      match firstSome l₁ with
      | some r => some r
      | none => firstSome l₂ := by
  intro l₁ l₂
  induction l₁ with
  | nil => rfl
  | cons o t ih =>
    cases o with
    | some r => rfl
    | none => simpa [firstSome] using ih

/-- The pipeline equals the first answer of the full cascade list. -/
theorem challengesOf_cascade : ∀ c,
    challengesOf c = firstSome (challengesCascadeFns.map (fun g => g c)) := by
  intro c
  unfold challengesOf extract_challenges challengesCascadeFns
  rw [List.map_append, firstSome_append]
  cases firstSome (challengeGroupFns.map fun g => g c) with
  | some r => rfl
  | none =>
    simp only [List.map_cons, List.map_nil, firstSome]
    cases extract_all_challenges_sections c <;> rfl

/-- `firstSome` returns the entry at the first non-`none` index. -/
theorem firstSome_get {α : Type} : ∀ (l : List (Option α)) (k : Nat) (v : α),
    l[k]? = some (some v) → (∀ j, j < k → l[j]? = some none) →
    firstSome l = some v := by
  intro l
  induction l with
  | nil => intro k v hk; simp at hk
  | cons o t ih =>
    intro k v hk hj
    match k with
    | 0 =>
      simp only [List.getElem?_cons_zero] at hk
      injection hk with ho
      rw [ho]
      rfl
    | k + 1 =>
      have h0 := hj 0 (by omega)
      simp only [List.getElem?_cons_zero] at h0
      injection h0 with ho
      subst ho
      simp only [firstSome]
      refine ih k v ?_ ?_
      · simpa using hk
      · intro j hjk
        have := hj (j + 1) (by omega)
        simpa using this

/-- Claim C1 (confirmed): if rule priority group `k` of the challenges
cascade (with the fallback extractor as the lowest-priority group) accepts
at least one match while every higher-priority group accepts none, then the
`challenges_problem_statements` value is exactly group `k`'s output -
no lower-priority group contributes. -/
theorem challenges_cascade_short_circuit :
    ∀ (c : List Char) (k : Nat) (g : List Char → Option (List Char))
      (v : List Char),
      challengesCascadeFns[k]? = some g →
      (∀ (j : Nat) (gj : List Char → Option (List Char)), j < k →
          challengesCascadeFns[j]? = some gj → gj c = none) →
      g c = some v →
      challengesOf c = some v := by
  intro c k g v hk hbelow hg
  rw [challengesOf_cascade]
  have hklen : k < challengesCascadeFns.length := by
    by_contra hge
    rw [List.getElem?_eq_none (by omega)] at hk
    exact Option.noConfusion hk
  refine firstSome_get _ k v ?_ ?_
  · rw [List.getElem?_map, hk]
    simp [hg]
  · intro j hj
    have hjlen : j < challengesCascadeFns.length := by omega
    have hgj : challengesCascadeFns[j]? = some challengesCascadeFns[j] :=
      List.getElem?_eq_getElem hjlen
    rw [List.getElem?_map, hgj]
    simp [hbelow j _ hj hgj]

/-- Claim C1 witness: the short-circuit theorem applied at `exBarriersDoc`
with `k = 0` (the pooled GEF/Barriers group accepts). -/
theorem challenges_cascade_short_circuit_witness :
    challengesOf exBarriersDoc.data = some exBarriersOut.data :=
  challenges_cascade_short_circuit exBarriersDoc.data 0 gefBarriersGroup
    exBarriersOut.data rfl
    (fun j _ hj _ => absurd hj (Nat.not_lt_zero j))
    (by decide)

/-!  Claim C9: the lowest-priority keyword fallback (scenario B). -/

/-- Claim C9 (confirmed): on the heading-free document `exKeywordDoc` every
rule group of `extract_challenges` produces nothing, and the pipeline
returns the keyword-bearing paragraph through the last-resort fallback;
the returned value contains the scenario-B phrase. -/
theorem keyword_fallback_scenario :
    extract_challenges exKeywordDoc.data = none ∧
    challengesOf exKeywordDoc.data = some exPara.data ∧
    containsSeq exPhrase.data exPara.data = true := by
  have h : extract_challenges exKeywordDoc.data = none := by decide
  refine ⟨h, ?_, by decide⟩
  unfold challengesOf
  rw [h]
  show extract_all_challenges_sections exKeywordDoc.data = some exPara.data
  decide

/-- Claim C5 counterexample: on `exSepDoc` the pipeline accepts two
sub-matches through the fallback extractor and joins them with a plain
blank line, not with the fixed separator `"\n\n---\n\n"`. -/
theorem challenges_separator_cex :
    extract_challenges exSepDoc.data = none ∧
    challengesOf exSepDoc.data =
      some (exSepP1.data ++ "\n\n".data ++ exSepP2.data) ∧
    exSepP1.data ++ "\n\n".data ++ exSepP2.data ≠
      exSepP1.data ++ sepJoin ++ exSepP2.data := by
  have h : extract_challenges exSepDoc.data = none := by decide
  refine ⟨h, ?_, by decide⟩
  unfold challengesOf
  rw [h]
  show extract_all_challenges_sections exSepDoc.data = _
  decide

/-!  Claim C8: the identifier resolver fallback chain. -/

/-- `takeWhile` over a satisfying block stops at the first failing
character. -/
theorem takeWhile_append_stop {p : Char → Bool} :
    ∀ (d : List Char) (c : Char) (rest : List Char),
      (∀ x ∈ d, p x = true) → p c = false →
      (d ++ c :: rest).takeWhile p = d := by
  intro d
  induction d with
  | nil => intro c rest _ hc; simp [List.takeWhile_cons, hc]
  | cons a t ih =>
    intro c rest hall hc
    have ha : p a = true := hall a (List.mem_cons_self a t)
    simp only [List.cons_append, List.takeWhile_cons, ha, if_true]
    rw [ih c rest (fun x hx => hall x (List.mem_cons_of_mem a hx)) hc]

/-- `takeWhile` with a failing head is empty. -/
theorem takeWhile_nil_of_head {p : Char → Bool} :
    ∀ (l : List Char), (∀ c, l.head? = some c → p c = false) →
      l.takeWhile p = [] := by
  intro l h
  match l with
  | [] => rfl
  | c :: t =>
    have := h c rfl
    simp [List.takeWhile_cons, this]

/-- `takeWhile` over an all-satisfying list is the list. -/
theorem takeWhile_all {p : Char → Bool} :
    ∀ (l : List Char), (∀ x ∈ l, p x = true) → l.takeWhile p = l := by
  intro l h
  induction l with
  | nil => rfl
  | cons a t ih =>
    have ha := h a (List.mem_cons_self a t)
    simp only [List.takeWhile_cons, ha, if_true]
    rw [ih (fun x hx => h x (List.mem_cons_of_mem a hx))]

/-- Is there a run of 5 consecutive digits anywhere? -/
def has5 : List Char → Bool
  | a :: b :: c :: d :: e :: t =>
    (isDigitC a && isDigitC b && isDigitC c && isDigitC d && isDigitC e) ||
      has5 (b :: c :: d :: e :: t)
  | _ => false

/-- Dropping the head cannot create a 5-digit run. -/
theorem has5_tail : ∀ (a : Char) (t : List Char),
    has5 (a :: t) = false → has5 t = false := by
  intro a t h
  match t with
  | b :: c :: d :: e :: t' =>
    simp only [has5, Bool.or_eq_false_iff] at h
    exact h.2
  | [] => rfl
  | [_] => rfl
  | [_, _] => rfl
  | [_, _, _] => rfl

/-- `dropWhile` cannot create a 5-digit run. -/
theorem has5_dropWhile {p : Char → Bool} : ∀ (l : List Char),
    has5 l = false → has5 (l.dropWhile p) = false := by
  intro l
  induction l with
  | nil => intro h; exact h
  | cons c t ih =>
    intro h
    rw [List.dropWhile_cons]
    split
    · exact ih (has5_tail c t h)
    · exact h

/-- A 5-long digit prefix is a 5-digit run. -/
theorem takeWhile_len5_has5 : ∀ (l : List Char),
    5 ≤ (l.takeWhile isDigitC).length → has5 l = true := by
  intro l h
  match l with
  | a :: b :: c :: d :: e :: t =>
    rw [List.takeWhile_cons] at h
    split at h
    · rename_i ha
      rw [List.takeWhile_cons] at h
      split at h
      · rename_i hb
        rw [List.takeWhile_cons] at h
        split at h
        · rename_i hc
          rw [List.takeWhile_cons] at h
          split at h
          · rename_i hd
            rw [List.takeWhile_cons] at h
            split at h
            · rename_i he
              simp [has5, ha, hb, hc, hd, he]
            · simp at h
          · simp at h
        · simp at h
      · simp at h
    · simp at h
  | [] => simp at h
  | [a] =>
    have := length_dropWhile_add_takeWhile isDigitC [a]
    simp at this
    omega
  | [a, b] =>
    have := length_dropWhile_add_takeWhile isDigitC [a, b]
    simp at this
    omega
  | [a, b, c] =>
    have := length_dropWhile_add_takeWhile isDigitC [a, b, c]
    simp at this
    omega
  | [a, b, c, d] =>
    have := length_dropWhile_add_takeWhile isDigitC [a, b, c, d]
    simp at this
    omega

/-- Without a 5-digit run the leftmost-run search fails. -/
theorem fiveRunGo_none : ∀ (f : Nat) (l : List Char),
    has5 l = false → fiveRunGo f l = none := by
  intro f
  induction f with
  | zero => intro l _; cases l <;> rfl
  | succ f ih =>
    intro l h
    match l with
    | [] => rfl
    | c :: t =>
      simp only [fiveRunGo]
      split
      · split
        · rename_i hrun
          rw [takeWhile_len5_has5 _ hrun] at h
          exact Bool.noConfusion h
        · exact ih _ (has5_dropWhile t (has5_tail c t h))
      · exact ih t (has5_tail c t h)

/-- A slash-free path is its own basename. -/
theorem basenameOf_no_slash : ∀ (l : List Char), ('/' ∈ l → False) →
    basenameOf l = l := by
  intro l h
  unfold basenameOf
  rw [takeWhile_all l.reverse ?_, List.reverse_reverse]
  intro x hx
  have hxl : x ∈ l := List.mem_reverse.mp hx
  simp only [Bool.not_eq_true']
  cases hbe : (x == '/') with
  | false => rfl
  | true =>
    exact absurd (by rwa [eq_of_beq hbe] at hxl) h

/-- Claim C8 (confirmed): `extract_project_id` is total by construction; for
every slash-free filename that starts with a non-empty digit run followed
by an underscore it returns exactly that run, and for every slash-free
filename with no leading digit and no 5-digit run anywhere it returns the
stem (the name with its final extension removed). -/
theorem extract_project_id_spec :
    (∀ (d rest : List Char), d ≠ [] → (∀ c ∈ d, isDigitC c = true) →
        ('/' ∈ d ++ '_' :: rest → False) →
        extract_project_id (d ++ '_' :: rest) = d) ∧
    (∀ l : List Char, ('/' ∈ l → False) →
        (∀ c, l.head? = some c → isDigitC c = false) →
        has5 l = false →
        extract_project_id l = stemOf l) := by
  constructor
  · intro d rest hne hd hs
    have hb := basenameOf_no_slash (d ++ '_' :: rest) hs
    have ht := takeWhile_append_stop d '_' rest hd (by decide)
    have hlen : d.length ≠ 0 := fun h0 => hne (List.length_eq_zero.mp h0)
    simp only [extract_project_id, hb, ht, List.drop_left]
    simp [hlen]
  · intro l hs hh h5
    have hb := basenameOf_no_slash l hs
    have ht := takeWhile_nil_of_head l hh
    have h5' : fiveRun l = none := by
      unfold fiveRun
      exact fiveRunGo_none _ _ h5
    simp only [extract_project_id, hb, ht, List.length_nil]
    simp [h5']

/-- Claim C8 witness: the spec applied at the two scenario-C filenames. -/
theorem extract_project_id_spec_witness :
    extract_project_id "140337_report_final.txt".data = "140337".data ∧
    extract_project_id "annex_tables.txt".data = "annex_tables".data := by
  constructor
  · have h := extract_project_id_spec.1 "140337".data "report_final.txt".data
      (by decide) (by decide) (by decide)
    have e : "140337".data ++ '_' :: "report_final.txt".data =
        "140337_report_final.txt".data := by decide
    rw [e] at h
    exact h
  · have h := extract_project_id_spec.2 "annex_tables.txt".data
      (by decide) (by decide) (by decide)
    rw [h]
    decide

/-!  Claim C3: idempotence of the text normalizer.  The counterexamples all
involve digits (page markers and standalone numeric lines); on digit-free
inputs `clean_text` reduces to line-ending normalisation, form-feed removal,
blank-line collapsing and stripping, and that composition is proved
idempotent below. -/

/-- Is there a run of 3 consecutive newlines anywhere? -/
def has3 : List Char → Bool
  | a :: b :: c :: t =>
    (a == '\n' && b == '\n' && c == '\n') || has3 (b :: c :: t)
  | _ => false

/-- Dropping the head cannot create a newline run. -/
theorem has3_tail : ∀ (a : Char) (t : List Char),
    has3 (a :: t) = false → has3 t = false := by
  intro a t h
  match t with
  | b :: c :: t' =>
    simp only [has3, Bool.or_eq_false_iff] at h
    exact h.2
  | [] => rfl
  | [_] => rfl

/-- A run in a left factor is a run of the whole list. -/
theorem has3_append_left : ∀ (u v : List Char),
    has3 u = true → has3 (u ++ v) = true := by
  intro u
  induction u with
  | nil => intro v h; exact absurd h (by simp [has3])
  | cons a u' ih =>
    intro v h
    match u', h with
    | b :: c :: t, h =>
      simp only [has3, Bool.or_eq_true] at h
      rcases h with h | h
      · simp [has3, h]
      · have := ih v h
        simp only [List.cons_append] at this ⊢
        rw [has3, this]
        simp
    | [], h => exact absurd h (by simp [has3])
    | [b], h => exact absurd h (by simp [has3])

/-- A run-free list has run-free right factors. -/
theorem has3_append_elim : ∀ (u v : List Char),
    has3 (u ++ v) = false → has3 v = false := by
  intro u
  induction u with
  | nil => intro v h; exact h
  | cons a u' ih =>
    intro v h
    exact ih v (has3_tail a _ h)

/-- A run-free list has run-free left factors. -/
theorem has3_append_elim_left : ∀ (u v : List Char),
    has3 (u ++ v) = false → has3 u = false := by
  intro u v h
  cases hu : has3 u with
  | false => rfl
  | true => rw [has3_append_left u v hu] at h; exact Bool.noConfusion h

/-- A first character other than a newline never contributes to a run. -/
theorem has3_cons_ne : ∀ (c : Char) (Z : List Char), (c == '\n') = false →
    has3 (c :: Z) = has3 Z := by
  intro c Z hc
  match Z with
  | z1 :: z2 :: Z' => simp [has3, hc]
  | [] => simp [has3]
  | [z1] => simp [has3]

/-- A second character other than a newline never contributes to a run
started at the head. -/
theorem has3_cons₂_ne : ∀ (x b : Char) (Z : List Char), (b == '\n') = false →
    has3 (x :: b :: Z) = has3 (b :: Z) := by
  intro x b Z hb
  match Z with
  | z :: Z' => simp [has3, hb]
  | [] => simp [has3]

/-- Two leading newlines followed by a non-newline contribute no run. -/
theorem has3_nn_cons : ∀ (y : Char) (Y' : List Char), (y == '\n') = false →
    has3 ('\n' :: '\n' :: y :: Y') = has3 (y :: Y') := by
  intro y Y' hy
  match Y' with
  | [] => simp [has3, hy]
  | z :: Y'' => simp [has3, hy]

/-- Collapsing the empty list. -/
theorem collapse_nil : ∀ f, collapseNlGo f [] = [] := by
  intro f
  cases f <;> rfl

/-- Collapsing a singleton. -/
theorem collapse_single : ∀ f (a : Char), collapseNlGo f [a] = [a] := by
  intro f a
  match f with
  | 0 => rfl
  | f + 1 =>
    rw [collapseNlGo.eq_def]
    split
    next heq => rfl
    next heq hx => simp at heq
    next f' t' heq1 heq2 => simp at heq2
    next f' c' t' hg heq1 heq2 =>
      injection heq2 with e1 e2
      rw [← e1, ← e2, collapse_nil]

/-- Collapsing a pair. -/
theorem collapse_pair : ∀ f (a b : Char), collapseNlGo f [a, b] = [a, b] := by
  intro f a b
  match f with
  | 0 => rfl
  | f + 1 =>
    rw [collapseNlGo.eq_def]
    split
    next heq => rfl
    next heq hx => simp at heq
    next f' t' heq1 heq2 => simp at heq2
    next f' c' t' hg heq1 heq2 =>
      injection heq2 with e1 e2
      rw [← e1, ← e2, collapse_single]

/-- The collapsing step on a three-newline prefix. -/
theorem collapse_three : ∀ f (t : List Char),
    collapseNlGo (f + 1) ('\n' :: '\n' :: '\n' :: t) =
      '\n' :: '\n' :: collapseNlGo f (t.dropWhile (· == '\n')) := fun _ _ => rfl

/-- The collapsing step on any other ≥3-element list. -/
theorem collapse_cons : ∀ f (a b c : Char) (t : List Char),
    ¬(a = '\n' ∧ b = '\n' ∧ c = '\n') →
    collapseNlGo (f + 1) (a :: b :: c :: t) =
      a :: collapseNlGo f (b :: c :: t) := by
  intro f a b c t h
  rw [collapseNlGo.eq_def]
  split
  next heq => exact absurd heq (by omega)
  next heq hx => simp at heq
  next f' t' heq1 heq2 =>
    simp only [List.cons.injEq] at heq2
    exact absurd ⟨heq2.1, heq2.2.1, heq2.2.2.1⟩ h
  next f' c' t' hg heq1 heq2 =>
    injection heq2 with e1 e2
    have hf : f' = f := by omega
    rw [← e1, ← e2, hf]

/-- Membership in a `dropWhile` implies membership in the list. -/
theorem dropWhile_mem {p : Char → Bool} {x : Char} {l : List Char}
    (h : x ∈ l.dropWhile p) : x ∈ l :=
  (List.dropWhile_suffix p).sublist.subset h

/-- The head of a `dropWhile` fails the predicate. -/
theorem head?_dropWhile_not {p : Char → Bool} : ∀ {l : List Char} {c : Char},
    (l.dropWhile p).head? = some c → p c = false := by
  intro l
  induction l with
  | nil => intro c h; simp at h
  | cons a t ih =>
    intro c h
    rw [List.dropWhile_cons] at h
    split at h
    · exact ih h
    · next hp =>
      injection h with hc
      subst hc
      simpa using hp

/-- A list whose head fails the predicate is unchanged by `dropWhile`. -/
theorem dropWhile_eq_self_of_head {p : Char → Bool} : ∀ (l : List Char),
    (∀ c, l.head? = some c → p c = false) → l.dropWhile p = l := by
  intro l h
  match l with
  | [] => rfl
  | c :: t =>
    have := h c rfl
    simp [List.dropWhile_cons, this]

/-- Collapsing preserves the head. -/
theorem collapse_head : ∀ f (l : List Char),
    (collapseNlGo f l).head? = l.head? := by
  intro f l
  match f, l with
  | 0, l => cases l <;> rfl
  | f + 1, [] => rfl
  | f + 1, [a] => rw [collapse_single]
  | f + 1, [a, b] => rw [collapse_pair]
  | f + 1, a :: b :: c :: t =>
    by_cases h3 : a = '\n' ∧ b = '\n' ∧ c = '\n'
    · obtain ⟨ha, hb, hc⟩ := h3
      subst ha; subst hb; subst hc
      rw [collapse_three]
      rfl
    · rw [collapse_cons f a b c t h3]
      rfl

/-- Collapsing with sufficient fuel leaves no newline run. -/
theorem collapse_no3 : ∀ f (l : List Char), l.length < f →
    has3 (collapseNlGo f l) = false := by
  intro f
  induction f using Nat.strong_induction_on with
  | _ f ih =>
    intro l hl
    match f, l with
    | 0, l => omega
    | f + 1, [] => rw [collapse_nil]; rfl
    | f + 1, [a] => rw [collapse_single]; rfl
    | f + 1, [a, b] => rw [collapse_pair]; rfl
    | f + 1, a :: b :: c :: t =>
      simp only [List.length_cons] at hl
      by_cases h3 : a = '\n' ∧ b = '\n' ∧ c = '\n'
      · obtain ⟨ha, hb, hc⟩ := h3
        subst ha; subst hb; subst hc
        rw [collapse_three]
        have hrl : (t.dropWhile (· == '\n')).length ≤ t.length :=
          dropWhile_len_le _ t
        have hY := collapse_head f (t.dropWhile (· == '\n'))
        cases hY2 : collapseNlGo f (t.dropWhile (· == '\n')) with
        | nil => rfl
        | cons y Y' =>
          rw [hY2] at hY
          have hy : (y == '\n') = false :=
            head?_dropWhile_not (p := fun x => x == '\n') hY.symm
          rw [has3_nn_cons y Y' hy, ← hY2]
          exact ih f (by omega) _ (by omega)
      · rw [collapse_cons f a b c t h3]
        have hZhead := collapse_head f (b :: c :: t)
        have hZ3 : has3 (collapseNlGo f (b :: c :: t)) = false :=
          ih f (by omega) _ (by simp; omega)
        by_cases ha : a = '\n'
        · subst ha
          by_cases hb : b = '\n'
          · subst hb
            have hc : ¬ c = '\n' := fun hc => h3 ⟨rfl, rfl, hc⟩
            -- unfold the inner collapse one more step
            match hf : f, ht : t with
            | 0, t => omega
            | f' + 1, [] =>
              rw [collapse_pair]
              simp [has3, hc]
            | f' + 1, d :: t' =>
              have hg : ¬('\n' = '\n' ∧ c = '\n' ∧ d = '\n') :=
                fun hg => hc hg.2.1
              rw [collapse_cons f' '\n' c d t' hg]
              have hW := collapse_head f' (c :: d :: t')
              cases hW2 : collapseNlGo f' (c :: d :: t') with
              | nil => rfl
              | cons w W' =>
                rw [hW2] at hW
                injection hW with hw
                have hwid : (w == '\n') = false := by
                  rw [hw]
                  simpa using hc
                rw [has3_nn_cons w W' hwid, ← hW2]
                exact ih f' (by omega) _ (by simp [ht] at hl; simp; omega)
          · cases hZ2 : collapseNlGo f (b :: c :: t) with
            | nil => rfl
            | cons z Z' =>
              rw [hZ2] at hZhead
              injection hZhead with hz
              have hzid : (z == '\n') = false := by
                rw [hz]; simpa using hb
              rw [has3_cons₂_ne '\n' z Z' hzid, ← hZ2]
              exact hZ3
        · have haid : (a == '\n') = false := by simpa using ha
          rw [has3_cons_ne a _ haid]
          exact hZ3

/-- Collapsing a run-free list is the identity. -/
theorem collapse_id : ∀ f (l : List Char), has3 l = false →
    collapseNlGo f l = l := by
  intro f
  induction f with
  | zero => intro l _; cases l <;> rfl
  | succ f ih =>
    intro l h
    match l with
    | [] => rw [collapse_nil]
    | [a] => rw [collapse_single]
    | [a, b] => rw [collapse_pair]
    | a :: b :: c :: t =>
      have h3 : ¬(a = '\n' ∧ b = '\n' ∧ c = '\n') := by
        intro ⟨ha, hb, hc⟩
        subst ha; subst hb; subst hc
        simp [has3] at h
      rw [collapse_cons f a b c t h3, ih _ (has3_tail a _ h)]

/-- Characters of a collapsed list come from the list or are newlines. -/
theorem collapse_mem : ∀ f (l : List Char) (x : Char),
    x ∈ collapseNlGo f l → x ∈ l ∨ x = '\n' := by
  intro f
  induction f with
  | zero => intro l x hx; cases l <;> exact Or.inl hx
  | succ f ih =>
    intro l x hx
    match l with
    | [] => rw [collapse_nil] at hx; exact Or.inl hx
    | [a] => rw [collapse_single] at hx; exact Or.inl hx
    | [a, b] => rw [collapse_pair] at hx; exact Or.inl hx
    | a :: b :: c :: t =>
      by_cases h3 : a = '\n' ∧ b = '\n' ∧ c = '\n'
      · obtain ⟨ha, hb, hc⟩ := h3
        subst ha; subst hb; subst hc
        rw [collapse_three] at hx
        rcases List.mem_cons.mp hx with hx | hx
        · exact Or.inr hx
        rcases List.mem_cons.mp hx with hx | hx
        · exact Or.inr hx
        rcases ih _ x hx with hx | hx
        · exact Or.inl (by
            have := dropWhile_mem hx
            simp [this])
        · exact Or.inr hx
      · rw [collapse_cons f a b c t h3] at hx
        rcases List.mem_cons.mp hx with hx | hx
        · exact Or.inl (by simp [hx])
        rcases ih _ x hx with hx | hx
        · exact Or.inl (by simp at hx ⊢; tauto)
        · exact Or.inr hx

/-- `normEOL` on a list not starting with a carriage return. -/
theorem normEOL_other : ∀ (c : Char) (t : List Char), c ≠ '\r' →
    normEOL (c :: t) = c :: normEOL t := by
  intro c t hc
  rw [normEOL.eq_def]
  split
  next heq => simp at heq
  next t' heq =>
    simp only [List.cons.injEq] at heq
    exact absurd heq.1 hc
  next t' heq =>
    simp only [List.cons.injEq] at heq
    exact absurd heq.1 hc
  next c' t' heq =>
    injection heq with e1 e2
    rw [e1, e2]

/-- `normEOL` on a lone carriage return before a non-newline. -/
theorem normEOL_r : ∀ (c : Char) (t : List Char), c ≠ '\n' →
    normEOL ('\r' :: c :: t) = '\n' :: normEOL (c :: t) := by
  intro c t hc
  rw [normEOL.eq_def]
  split
  next heq => simp at heq
  next t' heq =>
    simp only [List.cons.injEq] at heq
    exact absurd heq.2.1 hc
  next t' heq =>
    injection heq with e1 e2
    rw [e2]
  next d u g2 g3 heq =>
    injection heq with e1 e2
    exact absurd e1.symm g3

/-- Characters of a normalised list come from the list (and are then not
carriage returns) or are newlines. -/
theorem normEOL_mem_strong : ∀ (n : Nat) (l : List Char), l.length ≤ n →
    ∀ x ∈ normEOL l, (x ∈ l ∧ x ≠ '\r') ∨ x = '\n' := by
  intro n
  induction n with
  | zero =>
    intro l hl x hx
    have : l = [] := List.length_eq_zero.mp (Nat.le_zero.mp hl)
    subst this
    simp [normEOL] at hx
  | succ n ih =>
    intro l hl x hx
    match l with
    | [] => simp [normEOL] at hx
    | c :: t =>
      simp only [List.length_cons] at hl
      by_cases hr : c = '\r'
      · subst hr
        match t with
        | [] =>
          have : normEOL ['\r'] = ['\n'] := rfl
          rw [this] at hx
          rcases List.mem_cons.mp hx with hx | hx
          · exact Or.inr hx
          · simp at hx
        | d :: t' =>
          simp only [List.length_cons] at hl
          by_cases hd : d = '\n'
          · subst hd
            have : normEOL ('\r' :: '\n' :: t') = '\n' :: normEOL t' := rfl
            rw [this] at hx
            rcases List.mem_cons.mp hx with hx | hx
            · exact Or.inr hx
            · rcases ih t' (by omega) x hx with ⟨h1, h2⟩ | h1
              · exact Or.inl ⟨by simp [h1], h2⟩
              · exact Or.inr h1
          · rw [normEOL_r d t' hd] at hx
            rcases List.mem_cons.mp hx with hx | hx
            · exact Or.inr hx
            · rcases ih (d :: t') (by simp; omega) x hx with ⟨h1, h2⟩ | h1
              · exact Or.inl ⟨by simp at h1 ⊢; tauto, h2⟩
              · exact Or.inr h1
      · rw [normEOL_other c t hr] at hx
        rcases List.mem_cons.mp hx with hx | hx
        · exact Or.inl ⟨by simp [hx], by rw [hx]; exact hr⟩
        · rcases ih t (by omega) x hx with ⟨h1, h2⟩ | h1
          · exact Or.inl ⟨by simp [h1], h2⟩
          · exact Or.inr h1

/-- `normEOL` is the identity on carriage-return-free text. -/
theorem normEOL_id : ∀ (l : List Char), (∀ x ∈ l, x ≠ '\r') →
    normEOL l = l := by
  intro l
  induction l with
  | nil => intro _; rfl
  | cons c t ih =>
    intro h
    rw [normEOL_other c t (h c (List.mem_cons_self c t)),
      ih (fun x hx => h x (List.mem_cons_of_mem c hx))]

/-- A successful `digitsTail` found a digit in its input. -/
theorem digitsTail_digit {l r : List Char} (h : digitsTail l = some r) :
    ∃ x, x ∈ l ∧ isDigitC x = true := by
  match l with
  | [] => simp [digitsTail] at h
  | c :: t =>
    simp only [digitsTail] at h
    split at h
    · next hd => exact ⟨c, List.mem_cons_self c t, hd⟩
    · simp at h

theorem mem_dropSp {x : Char} {l : List Char} (h : x ∈ dropSp l) : x ∈ l :=
  dropWhile_mem h

/-- A successful page-marker match found a digit in its input. -/
theorem matchPipePage_digit {l r : List Char} (h : matchPipePage l = some r) :
    ∃ x, x ∈ l ∧ isDigitC x = true := by
  simp only [matchPipePage, Option.bind_eq_bind, Option.bind_eq_some] at h
  obtain ⟨r1, h1, r2, h2, r3, h3, r4, h4, r5, h5, hfin⟩ := h
  obtain ⟨x, hx, hd⟩ := digitsTail_digit hfin
  refine ⟨x, ?_, hd⟩
  have e5 := expectC_some h5
  have e4 := expectC_some h4
  have e3 := expectC_some h3
  have e2 := expectC_some h2
  have e1 := expectC_some h1
  have m5 : x ∈ r5 := mem_dropSp hx
  have m4 : x ∈ r4 := mem_dropSp (by rw [e5]; exact List.mem_cons_of_mem _ m5)
  have m3 : x ∈ r3 := mem_dropSp (by rw [e4]; exact List.mem_cons_of_mem _ m4)
  have m2 : x ∈ r2 := mem_dropSp (by rw [e3]; exact List.mem_cons_of_mem _ m3)
  have m1 : x ∈ r1 := mem_dropSp (by rw [e2]; exact List.mem_cons_of_mem _ m2)
  rw [e1]
  exact List.mem_cons_of_mem _ m1

/-- A successful second page-marker match found a digit in its input. -/
theorem p2Match_digit {l r : List Char} (h : p2Match l = some r) :
    ∃ x, x ∈ l ∧ isDigitC x = true := by
  simp only [p2Match, Option.bind_eq_bind, Option.bind_eq_some] at h
  obtain ⟨r1, h1, r2, h2, r3, h3, r4, h4, r5, h5, hfin⟩ := h
  have e5 := expectCI_some h5
  have e4 := expectCI_some h4
  have e3 := expectCI_some h3
  have e2 := expectCI_some h2
  have e1 := expectC_some h1
  obtain ⟨x5, e5⟩ := e5
  obtain ⟨x4, e4⟩ := e4
  obtain ⟨x3, e3⟩ := e3
  obtain ⟨x2, e2⟩ := e2
  cases hr5 : r5 with
  | nil => rw [hr5] at hfin; simp at hfin
  | cons c0 t0 =>
    rw [hr5] at hfin
    split at hfin
    next xh th hsp =>
      split at hfin
      next hsp2 =>
        rw [Option.bind_eq_some] at hfin
        obtain ⟨r6, h6, _⟩ := hfin
        obtain ⟨x, hx, hd⟩ := digitsTail_digit h6
        refine ⟨x, ?_, hd⟩
        have m5 : x ∈ r5 := by rw [hr5]; exact mem_dropSp hx
        have m4 : x ∈ r4 := by rw [e5]; exact List.mem_cons_of_mem _ m5
        have m3 : x ∈ r3 := by rw [e4]; exact List.mem_cons_of_mem _ m4
        have m2 : x ∈ r2 := by rw [e3]; exact List.mem_cons_of_mem _ m3
        have m1 : x ∈ r1 := mem_dropSp (by rw [e2]; exact List.mem_cons_of_mem _ m2)
        rw [e1]
        exact List.mem_cons_of_mem _ m1
      next hsp2 => simp at hfin
    next hsp => simp at hsp

/-- `dlMatch` fails on digit-free input. -/
theorem dlMatch_noDigit {l : List Char} (h : ∀ x ∈ l, isDigitC x = false) :
    dlMatch l = none := by
  have ht : l.takeWhile isDigitC = [] := by
    cases l with
    | nil => rfl
    | cons c t => simp [List.takeWhile_cons, h c (List.mem_cons_self c t)]
  simp [dlMatch, ht]

/-- The first page-marker substitution is the identity on digit-free text. -/
theorem pageSub1Go_id : ∀ f (l : List Char),
    (∀ x ∈ l, isDigitC x = false) → pageSub1Go f l = l := by
  intro f
  induction f with
  | zero => intro l _; cases l <;> rfl
  | succ f ih =>
    intro l h
    cases l with
    | nil => rfl
    | cons c t =>
      have hm : matchPipePage (c :: t) = none := by
        cases hmm : matchPipePage (c :: t) with
        | none => rfl
        | some r =>
          obtain ⟨x, hx, hd⟩ := matchPipePage_digit hmm
          rw [h x hx] at hd
          exact absurd hd (by simp)
      simp only [pageSub1Go, hm]
      rw [ih t (fun x hx => h x (List.mem_cons_of_mem c hx))]

/-- The second page-marker substitution is the identity on digit-free text. -/
theorem pageSub2Go_id : ∀ f (l : List Char),
    (∀ x ∈ l, isDigitC x = false) → pageSub2Go f l = l := by
  intro f
  induction f with
  | zero => intro l _; cases l <;> rfl
  | succ f ih =>
    intro l h
    cases l with
    | nil => rfl
    | cons c t =>
      have hm : p2Match (c :: t) = none := by
        cases hmm : p2Match (c :: t) with
        | none => rfl
        | some r =>
          obtain ⟨x, hx, hd⟩ := p2Match_digit hmm
          rw [h x hx] at hd
          exact absurd hd (by simp)
      simp only [pageSub2Go, hm]
      rw [ih t (fun x hx => h x (List.mem_cons_of_mem c hx))]

/-- The standalone-digit-line substitution is the identity on digit-free
text. -/
theorem digitLineGo_id : ∀ f (b : Bool) (l : List Char),
    (∀ x ∈ l, isDigitC x = false) → digitLineGo f b l = l := by
  intro f
  induction f with
  | zero => intro b l _; cases l <;> rfl
  | succ f ih =>
    intro b l h
    cases l with
    | nil => cases b <;> rfl
    | cons c t =>
      have hm : dlMatch (c :: t) = none := dlMatch_noDigit h
      have ht := ih (c == '\n') t (fun x hx => h x (List.mem_cons_of_mem c hx))
      cases b with
      | true =>
        simp only [digitLineGo, if_true, hm]
        rw [ht]
      | false =>
        simp only [digitLineGo]
        rw [ht]
        simp

/-- `removeFF` is the identity on form-feed-free text. -/
theorem removeFF_id {l : List Char} (h : ∀ x ∈ l, (x == '\x0c') = false) :
    removeFF l = l := by
  unfold removeFF
  apply List.filter_eq_self.mpr
  intro a ha
  simp [h a ha]

theorem removeFF_mem {x : Char} {l : List Char} (h : x ∈ removeFF l) :
    x ∈ l ∧ (x == '\x0c') = false := by
  unfold removeFF at h
  have := List.mem_filter.mp h
  refine ⟨this.1, ?_⟩
  have := this.2
  simpa using this

/-- `getLast?` of an append with a nonempty right part. -/
theorem getLast_append_right (u v : List Char) (h : v ≠ []) :
    (u ++ v).getLast? = v.getLast? := by
  rw [← List.head?_reverse, ← List.head?_reverse, List.reverse_append]
  cases hr : v.reverse with
  | nil => exact absurd (List.reverse_eq_nil_iff.mp hr) h
  | cons a t => rfl

/-- The head of a stripped list is not whitespace. -/
theorem strip_head {l : List Char} {c : Char}
    (h : (stripList l).head? = some c) : pySpace c = false := by
  unfold stripList at h
  rw [List.head?_reverse] at h
  have hne : (l.dropWhile pySpace).reverse.dropWhile pySpace ≠ [] := by
    intro he
    rw [he] at h
    simp at h
  have hfac : (l.dropWhile pySpace).reverse
      = (l.dropWhile pySpace).reverse.takeWhile pySpace
        ++ (l.dropWhile pySpace).reverse.dropWhile pySpace :=
    (List.takeWhile_append_dropWhile pySpace ((l.dropWhile pySpace).reverse)).symm
  have h2 : ((l.dropWhile pySpace).reverse).getLast? = some c := by
    rw [hfac, getLast_append_right _ _ hne]
    exact h
  rw [List.getLast?_reverse] at h2
  exact head?_dropWhile_not h2

/-- The last character of a stripped list is not whitespace. -/
theorem strip_last {l : List Char} {c : Char}
    (h : (stripList l).getLast? = some c) : pySpace c = false := by
  unfold stripList at h
  rw [List.getLast?_reverse] at h
  exact head?_dropWhile_not h

/-- Stripping is the identity when neither end is whitespace. -/
theorem stripList_id (l : List Char)
    (h1 : ∀ c, l.head? = some c → pySpace c = false)
    (h2 : ∀ c, l.getLast? = some c → pySpace c = false) :
    stripList l = l := by
  unfold stripList
  rw [dropWhile_eq_self_of_head l h1]
  have : l.reverse.dropWhile pySpace = l.reverse := by
    apply dropWhile_eq_self_of_head
    intro c hc
    rw [List.head?_reverse] at hc
    exact h2 c hc
  rw [this, List.reverse_reverse]

/-- Stripping is idempotent. -/
theorem stripList_idem (l : List Char) :
    stripList (stripList l) = stripList l :=
  stripList_id _ (fun _ hc => strip_head hc) (fun _ hc => strip_last hc)

theorem stripList_mem {x : Char} {l : List Char} (h : x ∈ stripList l) :
    x ∈ l := by
  unfold stripList at h
  rw [List.mem_reverse] at h
  have := dropWhile_mem h
  rw [List.mem_reverse] at this
  exact dropWhile_mem this

/-- Dropping a prefix cannot create a newline run. -/
theorem has3_dropWhile {p : Char → Bool} {l : List Char}
    (h : has3 l = false) : has3 (l.dropWhile p) = false :=
  has3_append_elim _ _ (by rw [List.takeWhile_append_dropWhile]; exact h)

/-- Stripping cannot create a newline run. -/
theorem has3_strip {l : List Char} (h : has3 l = false) :
    has3 (stripList l) = false := by
  have hy : has3 (l.dropWhile pySpace) = false := has3_dropWhile h
  have hfac : l.dropWhile pySpace
      = ((l.dropWhile pySpace).reverse.dropWhile pySpace).reverse
        ++ ((l.dropWhile pySpace).reverse.takeWhile pySpace).reverse := by
    rw [← List.reverse_append, List.takeWhile_append_dropWhile,
      List.reverse_reverse]
  rw [hfac] at hy
  exact has3_append_elim_left _ _ hy

/-- Collapsing is the identity on run-free text. -/
theorem collapseNl_id {l : List Char} (h : has3 l = false) :
    collapseNl l = l := by
  unfold collapseNl
  exact collapse_id _ _ h

/-- On digit-free input the three digit-dependent substitutions of
`clean_text` vanish. -/
theorem clean_text_list_digit_free (l : List Char)
    (h : ∀ x ∈ l, isDigitC x = false) :
    clean_text_list l = stripList (collapseNl (removeFF (normEOL l))) := by
  have hN : ∀ x ∈ normEOL l, isDigitC x = false := by
    intro x hx
    rcases normEOL_mem_strong l.length l (Nat.le_refl _) x hx with ⟨h1, _⟩ | h1
    · exact h x h1
    · rw [h1]; decide
  unfold clean_text_list pageSub1 pageSub2 digitLineSub
  rw [pageSub1Go_id _ _ hN, pageSub2Go_id _ _ hN, digitLineGo_id _ _ _ hN]

/-- Every character of digit-free cleaned text is a non-digit, not a carriage
return and not a form feed. -/
theorem cleanedProps (l : List Char) (h : ∀ x ∈ l, isDigitC x = false) :
    ∀ x ∈ stripList (collapseNl (removeFF (normEOL l))),
      isDigitC x = false ∧ x ≠ '\r' ∧ (x == '\x0c') = false := by
  intro x hx
  have hx1 := stripList_mem hx
  unfold collapseNl at hx1
  rcases collapse_mem _ _ x hx1 with hx2 | hx2
  · obtain ⟨hx3, hff⟩ := removeFF_mem hx2
    rcases normEOL_mem_strong l.length l (Nat.le_refl _) x hx3 with ⟨h1, h2⟩ | h1
    · exact ⟨h x h1, h2, hff⟩
    · subst h1
      exact ⟨by decide, by decide, by decide⟩
  · subst hx2
    exact ⟨by decide, by decide, by decide⟩

/-- Cleaned text contains no run of three or more newlines. -/
theorem cleanedHas3 (l : List Char) :
    has3 (stripList (collapseNl (removeFF (normEOL l)))) = false := by
  apply has3_strip
  unfold collapseNl
  exact collapse_no3 _ _ (Nat.lt_succ_self _)

/-- The body of `clean_text` is idempotent on digit-free input. -/
theorem clean_text_list_stable (l : List Char)
    (h : ∀ x ∈ l, isDigitC x = false) :
    clean_text_list (clean_text_list l) = clean_text_list l := by
  rw [clean_text_list_digit_free l h]
  have hp := cleanedProps l h
  have hD : ∀ x ∈ stripList (collapseNl (removeFF (normEOL l))),
      isDigitC x = false := fun x hx => (hp x hx).1
  rw [clean_text_list_digit_free _ hD]
  rw [normEOL_id _ (fun x hx => (hp x hx).2.1)]
  rw [removeFF_id (fun x hx => (hp x hx).2.2)]
  rw [collapseNl_id (cleanedHas3 l)]
  exact stripList_idem _

/-- `cleanTextL` output on digit-free input is a fixed point. -/
theorem cleanTextL_stable (l : List Char) (h : ∀ x ∈ l, isDigitC x = false)
    {t : List Char} (ht : cleanTextL l = some t) : cleanTextL t = some t := by
  unfold cleanTextL at ht ⊢
  cases hc : clean_text_list l with
  | nil => rw [hc] at ht; exact absurd ht (by simp)
  | cons a r =>
    rw [hc] at ht
    have hstab := clean_text_list_stable l h
    rw [hc] at hstab
    have ht2 : some (a :: r) = some t := ht
    injection ht2 with ht2
    subst ht2
    rw [hstab]

/-- A second application of `clean_text` to an already produced value. -/
def renormalize (o : Option String) : Option String :=
  match o with
  | some t => clean_text t
  | none => none

/-- Claim C3 counterexample: `clean_text` is not idempotent.  On the input
`"  1\nA"` the first pass strips the leading spaces, which turns `"1"` into a
standalone 1-3 digit line; the second pass then deletes it, so cleaning the
cleaned value `"1\nA"` yields `"A"`. -/
theorem clean_text_not_idempotent :
    renormalize (clean_text (String.mk [' ', ' ', '1', '\n', 'A'])) ≠
      clean_text (String.mk [' ', ' ', '1', '\n', 'A']) := by
  decide

/-- Claim C3 (amended): on inputs containing no ASCII digit, `clean_text` is
idempotent - re-cleaning the cleaned value changes nothing.  (Digit-bearing
inputs can break idempotence because stripping and page-marker removal can
expose a new standalone digit line, as in the counterexample.) -/
theorem clean_text_idempotent_digit_free (s : String)
    (h : ∀ x ∈ s.data, isDigitC x = false) :
    renormalize (clean_text s) = clean_text s := by
  unfold renormalize
  unfold clean_text
  cases hc : cleanTextL s.data with
  | none => rfl
  | some t =>
    have h2 := cleanTextL_stable s.data h hc
    show clean_text (String.mk t) = some (String.mk t)
    unfold clean_text
    show (cleanTextL t).map (fun l => String.mk l) = some (String.mk t)
    rw [h2]
    rfl

/-- Witness: the amended C3 theorem applied to the concrete digit-free input
`"A\n\n\n\nB"`. -/
theorem clean_text_idempotent_digit_free_witness :
    renormalize (clean_text (String.mk ['A', '\n', '\n', '\n', '\n', 'B'])) =
      clean_text (String.mk ['A', '\n', '\n', '\n', '\n', 'B']) :=
  clean_text_idempotent_digit_free _ (by decide)

end UPD
